import Mathlib

/-!
# SDI-12 bus driver (`src/src/SDI12.cpp`): embedding and verification

The driver keeps its whole state in file-level globals.  The embedding collects
them in one record, `Globals`, together with a log of the calls made to the
external GPIO / timing / console collaborators.  Every member function of the
class becomes a function on `Globals`; machine integers are natural numbers
with explicit reduction modulo `2^8` where the source converts to `uint8_t`.
-/

/-! ## Constants -/

/-- Source: `#define _BUFFER_SIZE 75`. -/
def BUFFER_SIZE : Nat := 75
/-- Source: `#define DISABLED 0`. -/
def DISABLED : Nat := 0
/-- Source: `#define ENABLED 1`. -/
def ENABLED : Nat := 1
/-- Source: `#define HOLDING 2`. -/
def HOLDING : Nat := 2
/-- Source: `#define TRANSMITTING 3`. -/
def TRANSMITTING : Nat := 3
/-- Source: `#define LISTENING 4`. -/
def LISTENING : Nat := 4
/-- Source: `#define INTERRUPTENABLED 5`. -/
def INTERRUPTENABLED : Nat := 5
/-- Source: `#define SPACING 805` (bit timing in microseconds). -/
def SPACING : Nat := 805

/-- Pin level `LOW` of the GPIO library (`wiringPi.h`). -/
def LOW : Nat := 0
/-- Pin level `HIGH` of the GPIO library (`wiringPi.h`). -/
def HIGH : Nat := 1
/-- Pull mode `PUD_DOWN` of the GPIO library (`wiringPi.h`). -/
def PUD_DOWN : Nat := 1
/-- Pull mode `PUD_UP` of the GPIO library (`wiringPi.h`). -/
def PUD_UP : Nat := 2

/-! ## External calls -/

/-- One call made by the driver to an external collaborator.  The constructors
carry the names used at the call sites of the source, including the two
misspelt ones (`pullPuDnControl` in `setState`, `delayMicrosecnds` in
`receiveChar`).  Each operand of a `std::cout <<` chain is one `cout` entry;
`std::cout << unsigned(state)` is `coutUnsigned`. -/
inductive Event where
  | digitalWrite (pin : Nat) (value : Nat)
  | digitalRead (pin : Nat)
  | pullUpDnControl (pin : Nat) (pud : Nat)
  | pullPuDnControl (pin : Nat) (pud : Nat)
  | delay (howLong : Nat)
  | delayMicroseconds (howLong : Nat)
  | delayMicrosecnds (howLong : Nat)
  | system (command : String)
  | cout (text : String)
  | coutUnsigned (value : Nat)
  deriving DecidableEq, Repr

/-! ## State -/

/-- The file-level variables of `SDI12.cpp`.

* `rxBuffer` is the memory addressed as `_rxBuffer[i]`: offsets `0 .. 74` are the
  array `char _rxBuffer[75]` itself, each cell holding a raw byte; the other
  offsets stand for the memory that the unchecked index expressions of the
  source (`_rxBufferTail - 1`, `_rxBufferTail - 2`, a head moved past the array
  by `advanceBufHead`) reach.
* `rxBufferHead`, `rxBufferTail` are the two `uint8_t` indices.
* `charSigned` records whether plain `char` is a signed type on the target
  (implementation-defined; it decides the `char -> int` conversions).
* `log` is the list of external calls made so far, oldest first. -/
structure Globals where
  txEnable : Nat
  txDataPin : Nat
  rxEnable : Nat
  rxDataPin : Nat
  bufferOverflow : Bool
  parityError : Bool
  rxBuffer : Int → Nat
  rxBufferHead : Nat
  rxBufferTail : Nat
  charSigned : Bool
  log : List Event

/-- Conversion of a raw byte held in a `char` to `int`. -/
def charToInt (charSigned : Bool) (b : Nat) : Int :=
  if charSigned && decide (128 ≤ b % 256) then ((b % 256 : Nat) : Int) - 256
  else ((b % 256 : Nat) : Int)

/-- Conversion of an `int` to `uint8_t`. -/
def toUInt8 (i : Int) : Nat := (i % 256).toNat

/-- The globals at program start: static storage is zero-initialised; the
signedness of `char` is a property of the target. -/
def programStart (charSigned : Bool) : Globals :=
  { txEnable := 0, txDataPin := 0, rxEnable := 0, rxDataPin := 0,
    bufferOverflow := false, parityError := false,
    rxBuffer := fun _ => 0, rxBufferHead := 0, rxBufferTail := 0,
    charSigned := charSigned, log := [] }

namespace SDI12

/-! ### Calls to the collaborators -/

/-- Append one external call to the log. -/
def emit (s : Globals) (e : Event) : Globals := { s with log := s.log ++ [e] }

def digitalWrite (s : Globals) (pin value : Nat) : Globals := emit s (Event.digitalWrite pin value)
def pullUpDnControl (s : Globals) (pin pud : Nat) : Globals := emit s (Event.pullUpDnControl pin pud)
def pullPuDnControl (s : Globals) (pin pud : Nat) : Globals := emit s (Event.pullPuDnControl pin pud)
def delay (s : Globals) (howLong : Nat) : Globals := emit s (Event.delay howLong)
def delayMicroseconds (s : Globals) (howLong : Nat) : Globals := emit s (Event.delayMicroseconds howLong)
def delayMicrosecnds (s : Globals) (howLong : Nat) : Globals := emit s (Event.delayMicrosecnds howLong)
def system (s : Globals) (command : String) : Globals := emit s (Event.system command)
def cout (s : Globals) (text : String) : Globals := emit s (Event.cout text)
def coutUnsigned (s : Globals) (value : Nat) : Globals := emit s (Event.coutUnsigned value)

/-- The call `digitalRead(pin)`: the level it returns is supplied by the
environment (`level`); the call itself is logged. -/
def digitalRead (s : Globals) (pin : Nat) (level : Nat) : Nat × Globals :=
  (level, emit s (Event.digitalRead pin))

/-! ### 2. Data line states -/

/-- Source: `SDI12::setState` (lines 123-173).  The `LISTENING` branch has no
`return`, so control continues to the tests that follow it. -/
def setState (s : Globals) (state : Nat) : Globals :=
  if state = HOLDING then
    let s := digitalWrite s s.rxEnable HIGH
    let s := digitalWrite s s.txEnable HIGH
    digitalWrite s s.txDataPin LOW
  else if state = TRANSMITTING then
    let s := digitalWrite s s.rxEnable HIGH
    digitalWrite s s.txEnable LOW
  else
    let s :=
      if state = LISTENING then
        let s := digitalWrite s s.txEnable HIGH
        digitalWrite s s.rxEnable LOW
      else s
    if state = DISABLED then
      let s := system s "gpio edge 22 none"
      let s := digitalWrite s s.rxEnable HIGH
      digitalWrite s s.txEnable HIGH
    else if state = INTERRUPTENABLED then
      let s := pullUpDnControl s s.rxDataPin PUD_UP
      let s := system s "gpiio edge 22 falling"
      let s := pullUpDnControl s s.rxDataPin PUD_DOWN
      let s := pullPuDnControl s s.rxDataPin PUD_UP
      let s := delay s 1
      let s := digitalWrite s s.rxEnable HIGH
      let s := digitalWrite s s.txDataPin HIGH
      digitalWrite s s.txEnable LOW
    else
      let s := cout s "Error: SetState = unknown check script for mistake"
      let s := cout s "\n"
      let s := coutUnsigned s state
      cout s "\n"

/-- Source: `SDI12::forceHold`. -/
def forceHold (s : Globals) : Globals := setState s HOLDING

/-! ### 3. Constructor, destructor, begin, end, status -/

/-- Source: the constructor `SDI12::SDI12` (lines 204-214), run on the globals
as they are at the time of the call. -/
def construct (s : Globals) (txEnable txDataPin rxEnable rxDataPin : Nat) : Globals :=
  { s with
    rxBufferHead := 0, rxBufferTail := 0,
    bufferOverflow := false, parityError := false,
    txEnable := txEnable % 256, txDataPin := txDataPin % 256,
    rxEnable := rxEnable % 256, rxDataPin := rxDataPin % 256 }

/-- Source: the destructor (lines 216-220). -/
def destructor (s : Globals) : Globals := setState s DISABLED

/-- Source: `SDI12::begin`. -/
def begin (s : Globals) : Globals := setState s INTERRUPTENABLED

/-- Source: `SDI12::end` (`end` is a reserved word, hence the underscore). -/
def end_ (s : Globals) : Globals := setState s DISABLED

/-- Source: `SDI12::parityErrorStatus`. -/
def parityErrorStatus (s : Globals) : Bool × Globals := (s.parityError, s)

/-- Source: `SDI12::overflowStatus`. -/
def overflowStatus (s : Globals) : Bool × Globals := (s.bufferOverflow, s)

/-! ### 4. Waking up, and talking to, the sensors -/

/-- Source: `SDI12::wakeSensors` (lines 309-316). -/
def wakeSensors (s : Globals) : Globals :=
  let s := setState s TRANSMITTING
  let s := digitalWrite s s.txDataPin LOW
  let s := delayMicroseconds s 14161
  let s := digitalWrite s s.txDataPin HIGH
  delayMicroseconds s 10000

/-- The parity computation of `writeChar` (lines 322-326) on the `uint8_t`
variable `_evenParityBit`. -/
def evenParityBit (out : Nat) : Nat :=
  let e := out % 256
  let e := (e ^^^ (out >>> 4)) % 256
  let e := e &&& 0x0F
  ((0x6996 >>> e) &&& 1) % 256

/-- The values taken by `mask` in `for (uint8_t mask = 0x01; mask; mask <<= 1)`:
the loop ends when the shifted `uint8_t` becomes zero.  The first argument
bounds the number of iterations followed. -/
def txMasks : Nat → Nat → List Nat
  | 0, _ => []
  | fuel + 1, mask => if mask = 0 then [] else mask :: txMasks fuel ((mask <<< 1) % 256)

/-- One iteration of the payload loop of `writeChar` (lines 333-339). -/
def writeBit (out : Nat) (s : Globals) (mask : Nat) : Globals :=
  let s := if out &&& mask ≠ 0 then digitalWrite s s.txDataPin HIGH
           else digitalWrite s s.txDataPin LOW
  delayMicroseconds s SPACING

/-- Source: `SDI12::writeChar` (lines 318-344). -/
def writeChar (s : Globals) (out : Nat) : Globals :=
  let out := out % 256
  let out := (out ||| (evenParityBit out <<< 7)) % 256
  let s := digitalWrite s s.txDataPin LOW
  let s := delayMicroseconds s 820
  let s := (txMasks 256 0x01).foldl (writeBit out) s
  let s := digitalWrite s s.txDataPin HIGH
  delayMicroseconds s 820

/-- Source: `SDI12::sendCommand` (lines 346-357); `cmd` is the list of the
bytes of the string. -/
def sendCommand (s : Globals) (cmd : List Nat) : Globals :=
  let s := wakeSensors s
  let s := cmd.foldl writeChar s
  setState s LISTENING

/-! ### 5. Reading from the SDI-12 object -/

/-- Source: `SDI12::availabe` (lines 404-412); `%` on `int` truncates. -/
def availabe (s : Globals) : Int × Globals :=
  if s.bufferOverflow then (-1, s)
  else (Int.tmod ((s.rxBufferTail : Int) + BUFFER_SIZE - s.rxBufferHead) BUFFER_SIZE, s)

/-- Source: `SDI12::LFCheck` (lines 415-430). -/
def LFCheck (s : Globals) : Bool × Globals :=
  if s.rxBufferHead = s.rxBufferTail then (false, s)
  else
    let LF := charToInt s.charSigned (s.rxBuffer ((s.rxBufferTail : Int) - 1))
    if LF = 10 then (true, s) else (false, s)

/-- Source: `SDI12::CRCheck` (lines 432-445). -/
def CRCheck (s : Globals) : Bool × Globals :=
  if s.rxBufferHead = s.rxBufferTail then (false, s)
  else
    let CR := charToInt s.charSigned (s.rxBuffer ((s.rxBufferTail : Int) - 2))
    if CR = 13 then (true, s) else (false, s)

/-- Source: `SDI12::peek` (lines 448-455). -/
def peek (s : Globals) : Int × Globals :=
  if s.rxBufferHead = s.rxBufferTail then (-1, s)
  else (charToInt s.charSigned (s.rxBuffer (s.rxBufferHead : Int)), s)

/-- Source: `SDI12::flush` (lines 458-464). -/
def flush (s : Globals) : Globals :=
  { s with rxBufferHead := 0, rxBufferTail := 0, bufferOverflow := false, parityError := false }

/-- Source: `SDI12::read` (lines 467-478).  The overflow flag is cleared before
the emptiness test. -/
def read (s : Globals) : Int × Globals :=
  let s := { s with bufferOverflow := false }
  if s.rxBufferHead = s.rxBufferTail then (-1, s)
  else
    let nextChar := s.rxBuffer (s.rxBufferHead : Int) % 256
    let s := { s with rxBufferHead := (s.rxBufferHead + 1) % BUFFER_SIZE }
    ((nextChar : Int), s)

/-- Source: `SDI12::advanceBufHead` (lines 481-487): the sum is converted back
to `uint8_t`, with no reduction modulo the buffer size. -/
def advanceBufHead (s : Globals) (advance : Int) : Globals :=
  { s with rxBufferHead := toUInt8 ((s.rxBufferHead : Int) + advance) }

/-! ### 6. Interrupt service routine -/

/-- The values taken by `i` in `for (uint16_t i = 0x1; i <= 0x80; i <<= 1)`.
The first argument bounds the number of iterations followed. -/
def rxMasks : Nat → Nat → List Nat
  | 0, _ => []
  | fuel + 1, i => if i ≤ 0x80 then i :: rxMasks fuel ((i <<< 1) % 65536) else []

/-- The parity computation of `receiveChar` (lines 596-600) on the `uint8_t`
variable `_evenOrOdd`. -/
def evenOrOdd (newChar : Nat) : Nat :=
  let e := newChar % 256
  let e := (e ^^^ (newChar >>> 4)) % 256
  let e := e &&& 0x0F
  ((0x6996 >>> e) &&& 1) % 256

/-- The sampling loop of `receiveChar` (lines 568-581) over the remaining
values of `i`.  `rx k` is the level returned by the `k`-th call of
`digitalRead` made by the current run of `receiveChar`, counted from 0; `k` is
the number of calls made so far.  Returns the state, `newChar` and the number
of `digitalRead` calls made when the loop is left. -/
def sampleLoop (rx : Nat → Nat) : List Nat → Nat → Globals → Nat → Globals × Nat × Nat
  | [], k, s, newChar => (s, newChar, k)
  | i :: rest, k, s, newChar =>
    let s := delayMicroseconds s 800
    let noti := 255 - i % 256
    let (level, s) := digitalRead s s.rxDataPin (rx k)
    if level = 0 then
      let s := cout s "pin level LOW : "
      let s := cout s "\n"
      sampleLoop rx rest (k + 1) s (newChar &&& noti)
    else
      let s := cout s "pin level HIGH : "
      let s := cout s "\n"
      sampleLoop rx rest (k + 1) s ((newChar ||| i) % 256)

/-- The last statements of `receiveChar` (lines 607-616): mask the byte to seven
bits, then either flag an overflow or store the byte and advance the tail.
The overflow test compares `_rxBufferTail + 1` with the head as written, with
no reduction modulo the buffer size. -/
def enqueue (s : Globals) (newChar : Nat) : Globals :=
  let newChar := newChar &&& 0x7F
  if s.rxBufferTail + 1 = s.rxBufferHead then
    let s := { s with bufferOverflow := true }
    let s := cout s "Buffer full - check overflowStatus() "
    cout s "\n"
  else
    { s with
      rxBuffer := Function.update s.rxBuffer (s.rxBufferTail : Int) newChar,
      rxBufferTail := (s.rxBufferTail + 1) % BUFFER_SIZE }

/-- Source: `SDI12::receiveChar` (lines 560-616), with the block structure of
the file as written: the block opened by the start-bit test (line 565) is
closed at line 605, after an unconditional `_parityError = true; end();
return;`, and lines 607-616 follow that block.  `rx` supplies the levels
returned by `digitalRead` (see `sampleLoop`).  At line 607 the name `newChar`
is outside the scope of its declaration; `stray` is the value it denotes
there. -/
def receiveChar (s : Globals) (rx : Nat → Nat) (stray : Nat) : Globals :=
  let (start, s) := digitalRead s s.rxDataPin (rx 0)
  if start = 0 then
    let newChar := 0
    let s := delayMicrosecnds s 20
    let (s, newChar, k) := sampleLoop rx (rxMasks 65536 0x1) 1 s newChar
    let newChar2 := newChar
    let _newChar2 := newChar2 &&& 0x7F
    let s := delayMicroseconds s 650
    let (stop, s) := digitalRead s s.rxDataPin (rx k)
    if stop = 0 then
      let s := cout s "receiveChar() Incorrect stop bit : - parityError set to true and interrupt disabled \n"
      let s := { s with parityError := true }
      end_ s
    else
      let _evenOrOdd := evenOrOdd newChar
      let s := cout s "receiveChar() parity error: - parityError set to true - check parityError()\n"
      let s := { s with parityError := true }
      end_ s
  else
    enqueue s stray

/-- Source: `SDI12::handleInterrupt` (lines 549-557). -/
def handleInterrupt (s : Globals) (rx : Nat → Nat) (stray : Nat) : Globals :=
  if s.parityError = true then
    cout s "handleInterrupt() error : parity error is true: \n"
  else
    receiveChar s rx stray

end SDI12

/-! ## Drivers and reference definitions used in the statements -/

namespace SDI12

/-- A freshly constructed driver: the constructor run at program start. -/
def fresh (charSigned : Bool) (txEnable txDataPin rxEnable rxDataPin : Nat) : Globals :=
  construct (programStart charSigned) txEnable txDataPin rxEnable rxDataPin

/-- Run the enqueue step of the decoder on each byte of a list, in order. -/
def enqueueAll (s : Globals) : List Nat → Globals
  | [] => s
  | b :: bs => enqueueAll (enqueue s b) bs

/-- Call `read()` `n` times in a row: the values returned, in order, and the
state after the last call. -/
def readN : Nat → Globals → List Int × Globals
  | 0, s => ([], s)
  | n + 1, s => (((read s).1 :: (readN n (read s).2).1), (readN n (read s).2).2)

/-- Number of bytes between head and tail, going round the ring. -/
def stored (s : Globals) : Nat := (s.rxBufferTail + BUFFER_SIZE - s.rxBufferHead) % BUFFER_SIZE

/-- The `n` bytes held in the ring from index `head` on, wrapping at the end of
the array. -/
def slots (buf : Int → Nat) : Nat → Nat → List Nat
  | _, 0 => []
  | head, n + 1 => buf (head : Int) % 256 :: slots buf ((head + 1) % BUFFER_SIZE) n

/-- The bytes currently held in the ring, oldest first. -/
def contents (s : Globals) : List Nat := slots s.rxBuffer s.rxBufferHead (stored s)

/-- Reference parity for the comparison with the fold: the number of one bits
of a byte (population count). -/
def popcount (b : Nat) : Nat := ((List.range 8).filter (fun k => b.testBit k)).length

/-- The levels a well-formed received frame presents to the ten successive
`digitalRead` calls of one run of the decoder: start sample `LOW`, the seven
data bits of `b` least-significant first (`HIGH` for a one), the even-parity
bit of `b`, stop sample `HIGH`.  Calls past the tenth read the idle level. -/
def wellFormedFrame (b : Nat) : Nat → Nat := fun k =>
  ([LOW] ++ (List.range 7).map (fun j => if b.testBit j then HIGH else LOW)
    ++ [if popcount b % 2 = 1 then HIGH else LOW] ++ [HIGH]).getD k HIGH

/-- Invoke `handleInterrupt` once per frame, in order. -/
def interrupts (s : Globals) (stray : Nat) : List (Nat → Nat) → Globals
  | [] => s
  | rx :: rest => interrupts (handleInterrupt s rx stray) stray rest

/-- The external calls made between state `s` and a later state `t`. -/
def emitted (s t : Globals) : List Event := t.log.drop s.log.length

/-- The `digitalWrite` calls of a list of external calls, as (pin, level)
pairs in order. -/
def writes (evs : List Event) : List (Nat × Nat) :=
  evs.filterMap (fun e => match e with
    | Event.digitalWrite pin value => some (pin, value)
    | _ => none)

/-- The ten levels of a transmitted frame as the claim describes them: `LOW`
for the start bit, the seven data bits of `b` least-significant first, `HIGH`
for the parity bit exactly when `b` has an odd number of one bits, `HIGH` for
the stop bit. -/
def frameLevels (b : Nat) : List Nat :=
  [LOW] ++ (List.range 7).map (fun k => if b.testBit k then HIGH else LOW)
    ++ [if popcount b % 2 = 1 then HIGH else LOW] ++ [HIGH]

/-- The operations other than `read()`, `flush()` and `advanceBufHead()` that a
caller or the decoder may run on the buffer. -/
inductive Probe where
  | enqueue (newChar : Nat)
  | peek
  | LFCheck
  | CRCheck

/-- Run one such operation and keep the resulting state. -/
def runProbe (s : Globals) : Probe → Globals
  | Probe.enqueue newChar => enqueue s newChar
  | Probe.peek => (peek s).2
  | Probe.LFCheck => (LFCheck s).2
  | Probe.CRCheck => (CRCheck s).2

/-- Run a list of such operations in order. -/
def runProbes (s : Globals) (ps : List Probe) : Globals := ps.foldl runProbe s

/-- A state reached through the public interface in which the ring is empty
and the overflow flag is set: the head is moved one slot ahead of the tail, an
enqueue then finds `tail + 1 == head`, and the head is moved back. -/
def emptyOverflowed : Globals :=
  advanceBufHead (enqueue (advanceBufHead (fresh false 4 17 27 22) 1) 65) (-1)

/-- A state reached from a fresh driver by enqueues and `read()` calls in
which the tail has wrapped to 0 while the ring is not empty: one byte is
enqueued and read, then 73 bytes 'a' and finally the byte `last` are enqueued
(head = 1, tail = 0, 74 bytes stored, `last` in the cell of index 74). -/
def wrappedTail (last : Nat) : Globals :=
  enqueueAll (read (enqueue (fresh false 4 17 27 22) 97)).2 (List.replicate 73 97 ++ [last])

/-- A state reached from a fresh driver in which one byte is stored and the
cell two places before the tail still holds a carriage return that has already
been read: enqueue CR, read it, enqueue 'x'. -/
def staleCR : Globals :=
  enqueue (read (enqueue (fresh false 4 17 27 22) 13)).2 120

/-- A state reached from a fresh driver in which the stored bytes straddle the
end of the array: 74 bytes are enqueued and read, then 'x' and 'y' are
enqueued (head = 74, tail = 1, 'x' in cell 74, 'y' in cell 0). -/
def straddling : Globals :=
  enqueueAll (readN 74 (enqueueAll (fresh false 4 17 27 22) (List.replicate 74 97))).2 [120, 121]

/-- Time in microseconds spent in delays from the start of a list of external
calls up to the next `digitalWrite`. -/
def holdTime : List Event → Nat
  | [] => 0
  | Event.digitalWrite _ _ :: _ => 0
  | Event.delayMicroseconds us :: rest => us + holdTime rest
  | Event.delayMicrosecnds us :: rest => us + holdTime rest
  | Event.delay ms :: rest => 1000 * ms + holdTime rest
  | _ :: rest => holdTime rest

/-- The timed intervals of a list of external calls: for each `digitalWrite`,
in order, the pin, the level written and the time the driver then waits before
its next `digitalWrite`. -/
def holds : List Event → List (Nat × Nat × Nat)
  | [] => []
  | Event.digitalWrite pin value :: rest => (pin, value, holdTime rest) :: holds rest
  | _ :: rest => holds rest

/-- Total time in microseconds spent in the delays of a list of external calls. -/
def totalDelay : List Event → Nat
  | [] => 0
  | Event.delayMicroseconds us :: rest => us + totalDelay rest
  | Event.delayMicrosecnds us :: rest => us + totalDelay rest
  | Event.delay ms :: rest => 1000 * ms + totalDelay rest
  | _ :: rest => totalDelay rest

/-- The pin writes and delays of a list of external calls, in order. -/
def pinWritesAndDelays (evs : List Event) : List Event :=
  evs.filter (fun e => match e with
    | Event.digitalWrite _ _ => true
    | Event.delayMicroseconds _ => true
    | Event.delayMicrosecnds _ => true
    | Event.delay _ => true
    | _ => false)

/-- The last level written to a pin by a list of external calls, if any. -/
def lastLevel (pin : Nat) (evs : List Event) : Option Nat :=
  (((writes evs).filter (fun w => w.1 = pin)).map Prod.snd).getLast?

/-- The value of `newChar` when the sampling loop of `receiveChar` is left: the
second component of `sampleLoop`, which does not depend on the state. -/
def sampledByte (rx : Nat → Nat) : List Nat → Nat → Nat → Nat
  | [], _, newChar => newChar
  | i :: rest, k, newChar =>
    if rx k = 0 then sampledByte rx rest (k + 1) (newChar &&& (255 - i % 256))
    else sampledByte rx rest (k + 1) ((newChar ||| i) % 256)

/-- The line levels given by a list of booleans (`true` for `HIGH`), indexed by
the number of the `digitalRead` call; calls past the list read `LOW`. -/
def levelsOfBools (bs : List Bool) : Nat → Nat := fun k => if bs.getD k false then HIGH else LOW

/-- Number of `digitalRead` calls in a list of external calls. -/
def readCount (evs : List Event) : Nat :=
  evs.countP (fun e => match e with
    | Event.digitalRead _ => true
    | _ => false)

/-- The levels of the eight payload bits of a frame: the second to the ninth
pin write of a list of external calls. -/
def payloadOf (evs : List Event) : List Nat := (((writes evs).map Prod.snd).drop 1).take 8

/-- The first text printed by the unknown-state branch of `setState`. -/
def unknownStateDiagnostic : Event :=
  Event.cout "Error: SetState = unknown check script for mistake"

/-- State `t` has the head, tail, buffer memory and both flags of state `s`. -/
def SameBuffer (s t : Globals) : Prop :=
  t.rxBufferHead = s.rxBufferHead ∧ t.rxBufferTail = s.rxBufferTail ∧
  t.rxBuffer = s.rxBuffer ∧ t.bufferOverflow = s.bufferOverflow ∧
  t.parityError = s.parityError

/-- The buffer invariant of the data model: both indices lie inside the array
and every cell of the array holds a seven-bit value. -/
def BufferInv (s : Globals) : Prop :=
  s.rxBufferHead < 75 ∧ s.rxBufferTail < 75 ∧ ∀ i : Nat, i < 75 → s.rxBuffer (i : Int) < 128

end SDI12

/-! ## Lemmas and theorems -/

set_option maxRecDepth 20000

namespace SDI12

theorem and_7F_of_lt {b : Nat} (h : b < 128) : b &&& 0x7F = b := by
  have h1 : b &&& 0x7F = b % 2 ^ 7 := Nat.and_pow_two_sub_one_eq_mod b 7
  rw [h1]
  exact Nat.mod_eq_of_lt h

theorem and_7F_lt (b : Nat) : b &&& 0x7F < 128 := by
  have h1 : b &&& 0x7F = b % 2 ^ 7 := Nat.and_pow_two_sub_one_eq_mod b 7
  rw [h1]
  exact Nat.mod_lt _ (by norm_num)

/-- The last of `n + 1` slots is the one at distance `n` from the head. -/
theorem slots_succ (buf : Int → Nat) (n : Nat) :
    ∀ head, head < 75 →
      slots buf head (n + 1) = slots buf head n ++ [buf (((head + n) % 75 : Nat) : Int) % 256] := by
  induction n with
  | zero =>
    intro head hh
    simp [slots, Nat.mod_eq_of_lt hh]
  | succ n ih =>
    intro head hh
    have hlt : (head + 1) % 75 < 75 := Nat.mod_lt _ (by norm_num)
    have hidx : ((head + 1) % 75 + n) % 75 = (head + (n + 1)) % 75 := by omega
    have step := ih ((head + 1) % 75) hlt
    rw [hidx] at step
    calc slots buf head (n + 1 + 1)
        = buf (head : Int) % 256 :: slots buf ((head + 1) % BUFFER_SIZE) (n + 1) := rfl
      _ = buf (head : Int) % 256 ::
            (slots buf ((head + 1) % 75) n ++ [buf (((head + (n + 1)) % 75 : Nat) : Int) % 256]) := by
          rw [← step]; rfl
      _ = slots buf head (n + 1) ++ [buf (((head + (n + 1)) % 75 : Nat) : Int) % 256] := rfl

/-- Writing a cell outside the `n` slots read from `head` leaves them as they were. -/
theorem slots_update (buf : Int → Nat) (t v : Nat) (n : Nat) :
    ∀ head, head < 75 → (∀ i, i < n → (head + i) % 75 ≠ t) →
      slots (Function.update buf (t : Int) v) head n = slots buf head n := by
  induction n with
  | zero => intro head _ _; rfl
  | succ n ih =>
    intro head hh hne
    have hlt : (head + 1) % 75 < 75 := Nat.mod_lt _ (by norm_num)
    have h0 : head ≠ t := by
      have := hne 0 (Nat.succ_pos n)
      simpa [Nat.mod_eq_of_lt hh] using this
    have hrest : ∀ i, i < n → ((head + 1) % 75 + i) % 75 ≠ t := by
      intro i hi
      have := hne (i + 1) (Nat.succ_lt_succ hi)
      have e : ((head + 1) % 75 + i) % 75 = (head + (i + 1)) % 75 := by omega
      rw [e]; exact this
    have hcell : Function.update buf (t : Int) v (head : Int) = buf (head : Int) := by
      apply Function.update_noteq
      intro hc
      exact h0 (Int.ofNat_inj.mp hc)
    show Function.update buf (t : Int) v (head : Int) % 256 ::
        slots (Function.update buf (t : Int) v) ((head + 1) % BUFFER_SIZE) n
      = buf (head : Int) % 256 :: slots buf ((head + 1) % BUFFER_SIZE) n
    rw [hcell]
    have := ih ((head + 1) % 75) hlt hrest
    simp only [BUFFER_SIZE] at *
    rw [this]

/-- Effect of the enqueue step when the test `tail + 1 == head` fails. -/
theorem enqueue_store (s : Globals) (b : Nat) (h : s.rxBufferTail + 1 ≠ s.rxBufferHead) :
    enqueue s b = { s with
      rxBuffer := Function.update s.rxBuffer (s.rxBufferTail : Int) (b &&& 0x7F),
      rxBufferTail := (s.rxBufferTail + 1) % BUFFER_SIZE } := by
  simp [enqueue, h]

/-- Effect of the enqueue step when the test `tail + 1 == head` succeeds. -/
theorem enqueue_full (s : Globals) (b : Nat) (h : s.rxBufferTail + 1 = s.rxBufferHead) :
    enqueue s b = { s with
      bufferOverflow := true,
      log := s.log ++ [Event.cout "Buffer full - check overflowStatus() ", Event.cout "\n"] } := by
  simp [enqueue, h, cout, emit]

/-- With fewer than 74 bytes stored the enqueue step appends its byte. -/
theorem enqueue_contents (s : Globals) (b : Nat)
    (hh : s.rxBufferHead < 75) (ht : s.rxBufferTail < 75) (hn : stored s < 74) :
    (enqueue s b).bufferOverflow = s.bufferOverflow ∧
    (enqueue s b).rxBufferHead = s.rxBufferHead ∧
    (enqueue s b).rxBufferTail < 75 ∧
    stored (enqueue s b) = stored s + 1 ∧
    contents (enqueue s b) = contents s ++ [b &&& 0x7F] := by
  simp only [stored, BUFFER_SIZE] at hn
  have hne : s.rxBufferTail + 1 ≠ s.rxBufferHead := by omega
  rw [enqueue_store s b hne]
  have hst : ((s.rxBufferTail + 1) % 75 + 75 - s.rxBufferHead) % 75
      = (s.rxBufferTail + 75 - s.rxBufferHead) % 75 + 1 := by omega
  refine ⟨rfl, rfl, ?_, ?_, ?_⟩
  · exact Nat.mod_lt _ (by decide)
  · simpa [stored, BUFFER_SIZE] using hst
  · simp only [contents, stored, BUFFER_SIZE]
    rw [hst, slots_succ _ _ _ hh]
    have hidx : (s.rxBufferHead + (s.rxBufferTail + 75 - s.rxBufferHead) % 75) % 75
        = s.rxBufferTail := by omega
    rw [hidx, Function.update_same, Nat.mod_eq_of_lt (lt_trans (and_7F_lt b) (by norm_num))]
    congr 1
    apply slots_update _ _ _ _ _ hh
    intro i hi
    omega

/-- Effect of `read()` on an empty ring. -/
theorem read_empty (s : Globals) (h : s.rxBufferHead = s.rxBufferTail) :
    read s = (-1, { s with bufferOverflow := false }) := by
  simp [read, h]

/-- Effect of `read()` on a non-empty ring. -/
theorem read_nonempty (s : Globals) (h : s.rxBufferHead ≠ s.rxBufferTail) :
    read s = (((s.rxBuffer (s.rxBufferHead : Int) % 256 : Nat) : Int),
      { s with bufferOverflow := false, rxBufferHead := (s.rxBufferHead + 1) % BUFFER_SIZE }) := by
  simp [read, h]

/-- A `read()` on a non-empty ring returns the oldest byte and removes it. -/
theorem read_contents (s : Globals)
    (hh : s.rxBufferHead < 75) (ht : s.rxBufferTail < 75) (hne : s.rxBufferHead ≠ s.rxBufferTail) :
    (read s).2.rxBufferHead < 75 ∧
    (read s).2.rxBufferTail = s.rxBufferTail ∧
    stored s = stored (read s).2 + 1 ∧
    0 ≤ (read s).1 ∧
    (contents s).map (fun b => (b : Int)) = (read s).1 :: (contents (read s).2).map (fun b => (b : Int)) := by
  rw [read_nonempty s hne]
  have hst : (s.rxBufferTail + 75 - s.rxBufferHead) % 75
      = (s.rxBufferTail + 75 - (s.rxBufferHead + 1) % 75) % 75 + 1 := by omega
  refine ⟨Nat.mod_lt _ (by decide), rfl, ?_, Int.ofNat_nonneg _, ?_⟩
  · simpa [stored, BUFFER_SIZE] using hst
  · simp only [contents, stored, BUFFER_SIZE]
    rw [hst]
    rfl

/-- Reading as many times as there are stored bytes returns the contents,
oldest first, and leaves the ring empty. -/
theorem readN_contents (n : Nat) :
    ∀ s : Globals, s.rxBufferHead < 75 → s.rxBufferTail < 75 → stored s = n →
      (readN n s).1 = (contents s).map (fun b => (b : Int)) ∧
      (readN n s).2.rxBufferHead = (readN n s).2.rxBufferTail := by
  induction n with
  | zero =>
    intro s hh ht hs
    simp only [stored, BUFFER_SIZE] at hs
    refine ⟨?_, ?_⟩
    · simp [readN, contents, stored, BUFFER_SIZE, hs, slots]
    · show s.rxBufferHead = s.rxBufferTail
      omega
  | succ n ih =>
    intro s hh ht hs
    have hne : s.rxBufferHead ≠ s.rxBufferTail := by
      intro he
      simp [stored, BUFFER_SIZE, he] at hs
    obtain ⟨h1, h2, h3, _, h5⟩ := read_contents s hh ht hne
    have hs' : stored (read s).2 = n := by omega
    obtain ⟨i1, i2⟩ := ih (read s).2 h1 (h2 ▸ ht) hs'
    refine ⟨?_, i2⟩
    show (read s).1 :: (readN n (read s).2).1 = _
    rw [i1, h5]

/-- Enqueueing a list of seven-bit bytes that fits appends them to the
contents, in order, and leaves the overflow flag and the head alone. -/
theorem enqueueAll_contents (bytes : List Nat) :
    ∀ s : Globals, s.rxBufferHead < 75 → s.rxBufferTail < 75 →
      stored s + bytes.length ≤ 74 → (∀ b ∈ bytes, b < 128) →
      (enqueueAll s bytes).bufferOverflow = s.bufferOverflow ∧
      (enqueueAll s bytes).rxBufferHead = s.rxBufferHead ∧
      (enqueueAll s bytes).rxBufferTail < 75 ∧
      stored (enqueueAll s bytes) = stored s + bytes.length ∧
      contents (enqueueAll s bytes) = contents s ++ bytes := by
  induction bytes with
  | nil =>
    intro s _ ht _ _
    simp [enqueueAll, ht]
  | cons b bs ih =>
    intro s hh ht hlen h7
    simp only [List.length_cons] at hlen
    obtain ⟨e1, e2, e3, e4, e5⟩ := enqueue_contents s b hh ht (by omega)
    have hb : b < 128 := h7 b (List.mem_cons_self b bs)
    obtain ⟨i1, i2, i3, i4, i5⟩ := ih (enqueue s b) (e2 ▸ hh) e3 (by omega)
      (fun x hx => h7 x (List.mem_cons_of_mem b hx))
    refine ⟨?_, ?_, ?_, ?_, ?_⟩
    · show (enqueueAll (enqueue s b) bs).bufferOverflow = _
      rw [i1, e1]
    · show (enqueueAll (enqueue s b) bs).rxBufferHead = _
      rw [i2, e2]
    · exact i3
    · show stored (enqueueAll (enqueue s b) bs) = _
      rw [i4, e4, List.length_cons]; omega
    · show contents (enqueueAll (enqueue s b) bs) = _
      rw [i5, e5, and_7F_of_lt hb]; simp

/-- C1: for every empty buffer state (head == tail < 75, overflow clear) and
every list of at most 74 seven-bit bytes, running the enqueue step of the
decoder on the bytes in order and then calling `read()` once per byte returns
exactly those bytes in the same order; no enqueue sets the overflow flag (it is
clear after every prefix of the enqueues), and one further `read()` returns -1. -/
theorem C1_fifo_round_trip (s : Globals) (bytes : List Nat)
    (hempty : s.rxBufferHead = s.rxBufferTail) (hhead : s.rxBufferHead < 75)
    (hclear : s.bufferOverflow = false)
    (hlen : bytes.length ≤ 74) (h7 : ∀ b ∈ bytes, b < 128) :
    (readN bytes.length (enqueueAll s bytes)).1 = bytes.map (fun b => (b : Int)) ∧
    (∀ k, k ≤ bytes.length → (enqueueAll s (bytes.take k)).bufferOverflow = false) ∧
    (read (readN bytes.length (enqueueAll s bytes)).2).1 = -1 := by
  have ht : s.rxBufferTail < 75 := hempty ▸ hhead
  have hs0 : stored s = 0 := by simp [stored, BUFFER_SIZE, hempty]
  have hc0 : contents s = [] := by simp [contents, hs0, slots]
  obtain ⟨_, a2, a3, a4, a5⟩ := enqueueAll_contents bytes s hhead ht (by omega) h7
  obtain ⟨r1, r2⟩ := readN_contents bytes.length (enqueueAll s bytes) (a2 ▸ hhead) a3 (by omega)
  refine ⟨?_, ?_, ?_⟩
  · rw [r1, a5, hc0]; rfl
  · intro k hk
    have hlk : (bytes.take k).length ≤ bytes.length := by
      rw [List.length_take]; exact Nat.min_le_right _ _
    obtain ⟨p1, _⟩ := enqueueAll_contents (bytes.take k) s hhead ht (by omega)
      (fun b hb => h7 b (List.mem_of_mem_take hb))
    rw [p1, hclear]
  · rw [read_empty _ r2]

/-- C1 applied to the reply `013<CR><LF>` on a freshly constructed driver. -/
theorem C1_fifo_round_trip_witness :
    (readN 5 (enqueueAll (fresh false 4 17 27 22) [48, 49, 51, 13, 10])).1 = [48, 49, 51, 13, 10] ∧
    (∀ k, k ≤ 5 → (enqueueAll (fresh false 4 17 27 22) ([48, 49, 51, 13, 10].take k)).bufferOverflow = false) ∧
    (read (readN 5 (enqueueAll (fresh false 4 17 27 22) [48, 49, 51, 13, 10])).2).1 = -1 :=
  C1_fifo_round_trip (fresh false 4 17 27 22) [48, 49, 51, 13, 10] rfl (by decide) rfl (by decide)
    (by decide)

/-- C2 (evaluation at the failing input): on a freshly constructed buffer 74
enqueues succeed and leave head = 0, tail = 74, so that (tail+1) mod 75 == head;
the 75th enqueue nevertheless stores its byte at index 74, wraps the tail to 0
and leaves the overflow flag clear, after which the ring reads as empty. -/
theorem C2_wrap_goes_undetected :
    (enqueueAll (fresh false 4 17 27 22) (List.replicate 74 65)).rxBufferHead = 0 ∧
    (enqueueAll (fresh false 4 17 27 22) (List.replicate 74 65)).rxBufferTail = 74 ∧
    (enqueueAll (fresh false 4 17 27 22) (List.replicate 74 65)).bufferOverflow = false ∧
    (enqueueAll (fresh false 4 17 27 22) (List.replicate 74 65 ++ [66])).bufferOverflow = false ∧
    (enqueueAll (fresh false 4 17 27 22) (List.replicate 74 65 ++ [66])).rxBufferTail = 0 ∧
    (enqueueAll (fresh false 4 17 27 22) (List.replicate 74 65 ++ [66])).rxBuffer 74 = 66 ∧
    (availabe (enqueueAll (fresh false 4 17 27 22) (List.replicate 74 65 ++ [66]))).1 = 0 ∧
    (read (enqueueAll (fresh false 4 17 27 22) (List.replicate 74 65 ++ [66]))).1 = -1 := by
  decide

/-- C3 (evaluation at the failing input): after `begin()` on a freshly
constructed driver, the well-formed frame of the byte '0' makes
`handleInterrupt` set the parity-error flag and enqueue nothing; the frames of
'0','1','3',CR,LF leave `availabe() == 0`, `LFCheck() == false` and
`read() == -1`. -/
theorem C3_well_formed_frame_rejected :
    (handleInterrupt (begin (fresh false 4 17 27 22)) (wellFormedFrame 48) 0).parityError = true ∧
    (availabe (handleInterrupt (begin (fresh false 4 17 27 22)) (wellFormedFrame 48) 0)).1 = 0 ∧
    (interrupts (begin (fresh false 4 17 27 22)) 0
      ([48, 49, 51, 13, 10].map wellFormedFrame)).parityError = true ∧
    (availabe (interrupts (begin (fresh false 4 17 27 22)) 0
      ([48, 49, 51, 13, 10].map wellFormedFrame))).1 = 0 ∧
    (LFCheck (interrupts (begin (fresh false 4 17 27 22)) 0
      ([48, 49, 51, 13, 10].map wellFormedFrame))).1 = false ∧
    (read (interrupts (begin (fresh false 4 17 27 22)) 0
      ([48, 49, 51, 13, 10].map wellFormedFrame))).1 = -1 := by
  decide

/-- C5: for every byte value 0..255 the parity fold of `writeChar` and the
parity fold of `receiveChar` both equal the population count of the byte
modulo 2. -/
theorem C5_parity_fold_is_popcount_mod_2 (b : Nat) (hb : b < 256) :
    evenParityBit b = popcount b % 2 ∧ evenOrOdd b = popcount b % 2 := by
  revert b
  decide

/-- C5 applied to the byte 'a' (three one bits). -/
theorem C5_parity_fold_is_popcount_mod_2_witness :
    evenParityBit 97 = popcount 97 % 2 ∧ evenOrOdd 97 = popcount 97 % 2 :=
  C5_parity_fold_is_popcount_mod_2 97 (by decide)

/-- The payload loop of `writeChar` leaves by its own exit test after the
eight masks `0x01 .. 0x80`. -/
theorem txMasks_eq : txMasks 256 0x01 = [1, 2, 4, 8, 16, 32, 64, 128] := by decide

/-- The payload loop of `writeChar` writes one level and one delay per mask,
all on the tx data pin, and changes nothing but the log. -/
theorem foldl_writeBit (out : Nat) (masks : List Nat) :
    ∀ s : Globals,
      (masks.foldl (writeBit out) s).txDataPin = s.txDataPin ∧
      (masks.foldl (writeBit out) s).log = s.log ++ masks.flatMap (fun mask =>
        [Event.digitalWrite s.txDataPin (if out &&& mask ≠ 0 then HIGH else LOW),
         Event.delayMicroseconds SPACING]) := by
  induction masks with
  | nil => intro s; simp
  | cons m ms ih =>
    intro s
    have hpin : (writeBit out s m).txDataPin = s.txDataPin := by
      unfold writeBit; split <;> rfl
    have hlog : (writeBit out s m).log = s.log ++
        [Event.digitalWrite s.txDataPin (if out &&& m ≠ 0 then HIGH else LOW),
         Event.delayMicroseconds SPACING] := by
      unfold writeBit; split <;> simp [digitalWrite, delayMicroseconds, emit]
    obtain ⟨i1, i2⟩ := ih (writeBit out s m)
    refine ⟨?_, ?_⟩
    · show (ms.foldl (writeBit out) (writeBit out s m)).txDataPin = _
      rw [i1, hpin]
    · show (ms.foldl (writeBit out) (writeBit out s m)).log = _
      rw [i2, hlog, hpin]
      simp [List.flatMap_cons]

/-- The external calls of `writeChar`, in order. -/
theorem writeChar_log (s : Globals) (out : Nat) :
    (writeChar s out).log = s.log ++
      ([Event.digitalWrite s.txDataPin LOW, Event.delayMicroseconds 820] ++
       (txMasks 256 0x01).flatMap (fun mask =>
        [Event.digitalWrite s.txDataPin
          (if (out % 256 ||| evenParityBit (out % 256) <<< 7) % 256 &&& mask ≠ 0 then HIGH else LOW),
         Event.delayMicroseconds SPACING]) ++
       [Event.digitalWrite s.txDataPin HIGH, Event.delayMicroseconds 820]) := by
  unfold writeChar
  simp only [digitalWrite, delayMicroseconds, emit]
  rw [(foldl_writeBit _ _ _).1, (foldl_writeBit _ _ _).2]
  simp

/-- The payload levels computed by `writeChar` for a seven-bit byte are its
data bits followed by its parity. -/
theorem payload_levels (b : Nat) (hb : b < 128) :
    (txMasks 256 0x01).map
      (fun mask => if (b % 256 ||| evenParityBit (b % 256) <<< 7) % 256 &&& mask ≠ 0 then HIGH else LOW)
    = (List.range 7).map (fun k => if b.testBit k then HIGH else LOW)
        ++ [if popcount b % 2 = 1 then HIGH else LOW] := by
  revert b
  decide

/-- The payload of a frame holds an even number of `HIGH` levels. -/
theorem payload_even (b : Nat) (hb : b < 128) :
    (((frameLevels b).drop 1).take 8).count HIGH % 2 = 0 := by
  revert b
  decide

/-- C4: for every seven-bit byte b, the `digitalWrite` calls made by
`writeChar(b)` are exactly ten writes of the tx data pin, in this order: `LOW`
(start bit); for k = 0..6, `HIGH` if bit k of b is one and `LOW` otherwise;
`HIGH` if the population count of b is odd and `LOW` otherwise (parity bit);
`HIGH` (stop bit).  The eight payload writes contain an even number of `HIGH`. -/
theorem C4_writeChar_frame (s : Globals) (b : Nat) (hb : b < 128) :
    writes (emitted s (writeChar s b)) = (frameLevels b).map (fun level => (s.txDataPin, level)) ∧
    (writes (emitted s (writeChar s b))).length = 10 ∧
    ((((writes (emitted s (writeChar s b))).map Prod.snd).drop 1).take 8).count HIGH % 2 = 0 := by
  have hw : writes (emitted s (writeChar s b))
      = (frameLevels b).map (fun level => (s.txDataPin, level)) := by
    unfold emitted
    rw [writeChar_log, List.drop_left]
    have hp := payload_levels b hb
    rw [txMasks_eq] at hp
    simp only [frameLevels, List.append_assoc, ← hp]
    simp [writes, txMasks_eq]
  refine ⟨hw, ?_, ?_⟩
  · rw [hw]; simp [frameLevels]
  · rw [hw, List.map_map]
    have : (Prod.snd ∘ fun level => (s.txDataPin, level)) = (id : Nat → Nat) := rfl
    rw [this, List.map_id]
    exact payload_even b hb

/-- C4 applied to the byte 'a' (binary 110 0001, three one bits) on a driver
whose tx data pin is 17. -/
theorem C4_writeChar_frame_witness :
    writes (emitted (fresh false 4 17 27 22) (writeChar (fresh false 4 17 27 22) 97))
      = [(17, 0), (17, 1), (17, 0), (17, 0), (17, 0), (17, 0), (17, 1), (17, 1), (17, 1), (17, 1)] ∧
    (writes (emitted (fresh false 4 17 27 22) (writeChar (fresh false 4 17 27 22) 97))).length = 10 ∧
    ((((writes (emitted (fresh false 4 17 27 22) (writeChar (fresh false 4 17 27 22) 97))).map
      Prod.snd).drop 1).take 8).count HIGH % 2 = 0 :=
  C4_writeChar_frame (fresh false 4 17 27 22) 97 (by decide)

/-- The query `peek()` returns the state it was given. -/
theorem peek_state (s : Globals) : (peek s).2 = s := by
  unfold peek; split <;> rfl

/-- The query `LFCheck()` returns the state it was given. -/
theorem LFCheck_state (s : Globals) : (LFCheck s).2 = s := by
  unfold LFCheck; split
  · rfl
  · dsimp only; split <;> rfl

/-- The query `CRCheck()` returns the state it was given. -/
theorem CRCheck_state (s : Globals) : (CRCheck s).2 = s := by
  unfold CRCheck; split
  · rfl
  · dsimp only; split <;> rfl

/-- The enqueue step never clears the overflow flag. -/
theorem enqueue_keeps_overflow (s : Globals) (b : Nat) (h : s.bufferOverflow = true) :
    (enqueue s b).bufferOverflow = true := by
  by_cases hf : s.rxBufferTail + 1 = s.rxBufferHead
  · rw [enqueue_full s b hf]
  · rw [enqueue_store s b hf]; exact h

/-- None of the operations of `Probe` clears the overflow flag. -/
theorem runProbes_keeps_overflow (ps : List Probe) :
    ∀ s : Globals, s.bufferOverflow = true → (runProbes s ps).bufferOverflow = true := by
  induction ps with
  | nil => intro s h; exact h
  | cons p ps ih =>
    intro s h
    show (runProbes (runProbe s p) ps).bufferOverflow = true
    apply ih
    cases p with
    | enqueue b => exact enqueue_keeps_overflow s b h
    | peek => show (peek s).2.bufferOverflow = true; rw [peek_state]; exact h
    | LFCheck => show (LFCheck s).2.bufferOverflow = true; rw [LFCheck_state]; exact h
    | CRCheck => show (CRCheck s).2.bufferOverflow = true; rw [CRCheck_state]; exact h

/-- The values returned by successive `read()` calls depend only on the head,
the tail and the buffer memory. -/
theorem readN_congr (n : Nat) :
    ∀ s t : Globals, s.rxBuffer = t.rxBuffer → s.rxBufferHead = t.rxBufferHead →
      s.rxBufferTail = t.rxBufferTail → (readN n s).1 = (readN n t).1 := by
  induction n with
  | zero => intro s t _ _ _; rfl
  | succ n ih =>
    intro s t hb hh ht
    have hv : (read s).1 = (read t).1 := by
      by_cases he : s.rxBufferHead = s.rxBufferTail
      · rw [read_empty s he, read_empty t (by rw [← hh, ← ht]; exact he)]
      · rw [read_nonempty s he, read_nonempty t (by rw [← hh, ← ht]; exact he), hb, hh]
    have hs : (read s).2.rxBuffer = (read t).2.rxBuffer ∧
        (read s).2.rxBufferHead = (read t).2.rxBufferHead ∧
        (read s).2.rxBufferTail = (read t).2.rxBufferTail := by
      by_cases he : s.rxBufferHead = s.rxBufferTail
      · rw [read_empty s he, read_empty t (by rw [← hh, ← ht]; exact he)]
        exact ⟨hb, hh, ht⟩
      · rw [read_nonempty s he, read_nonempty t (by rw [← hh, ← ht]; exact he)]
        exact ⟨hb, by show (s.rxBufferHead + 1) % BUFFER_SIZE = (t.rxBufferHead + 1) % BUFFER_SIZE; rw [hh], ht⟩
    show (read s).1 :: (readN n (read s).2).1 = (read t).1 :: (readN n (read t).2).1
    rw [hv, ih (read s).2 (read t).2 hs.1 hs.2.1 hs.2.2]

/-- C6: in every state in which overflow is set, `availabe()` returns -1, and
it still returns -1 after any sequence of further enqueues, `peek()`,
`LFCheck()` and `CRCheck()` calls; after one `read()` on a non-empty buffer
`overflowStatus()` is false and `availabe()` is non-negative; and if the flag
was set by the enqueue of a byte b, every sequence of reads that follows
returns what it would have returned had b never been offered. -/
theorem C6_overflow_sentinel (s : Globals) (hov : s.bufferOverflow = true) :
    (availabe s).1 = -1 ∧
    (∀ ps : List Probe, (availabe (runProbes s ps)).1 = -1) ∧
    (s.rxBufferHead ≠ s.rxBufferTail →
      (overflowStatus (read s).2).1 = false ∧ 0 ≤ (availabe (read s).2).1) ∧
    (∀ (s0 : Globals) (b : Nat), s0.bufferOverflow = false → s = enqueue s0 b →
      ∀ n, (readN n s).1 = (readN n s0).1) := by
  have hav : ∀ t : Globals, t.bufferOverflow = true → (availabe t).1 = -1 := by
    intro t ht
    simp [availabe, ht]
  refine ⟨hav s hov, fun ps => hav _ (runProbes_keeps_overflow ps s hov), ?_, ?_⟩
  · intro hne
    rw [read_nonempty s hne]
    refine ⟨rfl, ?_⟩
    simp only [availabe, BUFFER_SIZE]
    apply Int.tmod_nonneg
    have : (s.rxBufferHead + 1) % 75 < 75 := Nat.mod_lt _ (by decide)
    omega
  · intro s0 b h0 hs n
    subst hs
    by_cases hf : s0.rxBufferTail + 1 = s0.rxBufferHead
    · apply readN_congr <;> rw [enqueue_full s0 b hf]
    · rw [enqueue_store s0 b hf] at hov
      rw [h0] at hov
      exact absurd hov (by decide)

/-- C6 applied to the state reached from a fresh driver by moving the head one
slot ahead with `advanceBufHead(1)` and then offering the byte 'A'. -/
theorem C6_overflow_sentinel_witness :
    (availabe (enqueue (advanceBufHead (fresh false 4 17 27 22) 1) 65)).1 = -1 ∧
    (∀ ps : List Probe,
      (availabe (runProbes (enqueue (advanceBufHead (fresh false 4 17 27 22) 1) 65) ps)).1 = -1) ∧
    ((enqueue (advanceBufHead (fresh false 4 17 27 22) 1) 65).rxBufferHead ≠
        (enqueue (advanceBufHead (fresh false 4 17 27 22) 1) 65).rxBufferTail →
      (overflowStatus (read (enqueue (advanceBufHead (fresh false 4 17 27 22) 1) 65)).2).1 = false ∧
      0 ≤ (availabe (read (enqueue (advanceBufHead (fresh false 4 17 27 22) 1) 65)).2).1) ∧
    (∀ (s0 : Globals) (b : Nat), s0.bufferOverflow = false →
      enqueue (advanceBufHead (fresh false 4 17 27 22) 1) 65 = enqueue s0 b →
      ∀ n, (readN n (enqueue (advanceBufHead (fresh false 4 17 27 22) 1) 65)).1 = (readN n s0).1) :=
  C6_overflow_sentinel (enqueue (advanceBufHead (fresh false 4 17 27 22) 1) 65) (by decide)

/-- With in-range indices and the overflow flag clear, `availabe()` is the
number of stored bytes. -/
theorem availabe_eq_stored (s : Globals) (hh : s.rxBufferHead < 75) (hov : s.bufferOverflow = false) :
    (availabe s).1 = ((stored s : Nat) : Int) := by
  have hcast : (s.rxBufferTail : Int) + 75 - (s.rxBufferHead : Int)
      = ((s.rxBufferTail + 75 - s.rxBufferHead : Nat) : Int) := by omega
  simp only [availabe, hov, stored, BUFFER_SIZE]
  show Int.tmod ((s.rxBufferTail : Int) + 75 - (s.rxBufferHead : Int)) 75 = _
  rw [hcast]
  exact (Int.ofNat_tmod _ _).symm

/-- One more `read()` than there are stored bytes: the stored bytes come back
as non-negative values, then -1. -/
theorem readN_succ_stored (n : Nat) :
    ∀ s : Globals, s.rxBufferHead < 75 → s.rxBufferTail < 75 → stored s = n →
      ∃ vs : List Int, (readN (n + 1) s).1 = vs ++ [-1] ∧ vs.length = n ∧ ∀ v ∈ vs, 0 ≤ v := by
  induction n with
  | zero =>
    intro s hh ht hs
    simp only [stored, BUFFER_SIZE] at hs
    have he : s.rxBufferHead = s.rxBufferTail := by omega
    refine ⟨[], ?_, rfl, by simp⟩
    show [(read s).1] = [-1]
    rw [read_empty s he]
  | succ n ih =>
    intro s hh ht hs
    have hne : s.rxBufferHead ≠ s.rxBufferTail := by
      intro he
      simp [stored, BUFFER_SIZE, he] at hs
    obtain ⟨h1, h2, h3, h4, _⟩ := read_contents s hh ht hne
    obtain ⟨vs, e1, e2, e3⟩ := ih (read s).2 h1 (h2 ▸ ht) (by omega)
    refine ⟨(read s).1 :: vs, ?_, by simp [e2], ?_⟩
    · show (read s).1 :: (readN (n + 1) (read s).2).1 = _
      rw [e1]; rfl
    · intro v hv
      rcases List.mem_cons.mp hv with h | h
      · rw [h]; exact h4
      · exact e3 v h

/-- C7: for every state with head < 75, tail < 75 and overflow clear,
`availabe()` equals (tail + 75 - head) mod 75, lies in 0..74, and is the number
k such that k successive `read()` calls each return a non-negative byte and the
(k+1)-th returns -1. -/
theorem C7_availabe_counts_reads (s : Globals)
    (hh : s.rxBufferHead < 75) (ht : s.rxBufferTail < 75) (hov : s.bufferOverflow = false) :
    (availabe s).1 = (((s.rxBufferTail + 75 - s.rxBufferHead) % 75 : Nat) : Int) ∧
    0 ≤ (availabe s).1 ∧ (availabe s).1 ≤ 74 ∧
    ∃ vs : List Int, (readN ((availabe s).1.toNat + 1) s).1 = vs ++ [-1] ∧
      (vs.length : Int) = (availabe s).1 ∧ ∀ v ∈ vs, 0 ≤ v := by
  have hav := availabe_eq_stored s hh hov
  have hlt : stored s < 75 := Nat.mod_lt _ (by decide)
  obtain ⟨vs, e1, e2, e3⟩ := readN_succ_stored (stored s) s hh ht rfl
  refine ⟨hav, ?_, ?_, vs, ?_, ?_, e3⟩
  · rw [hav]; exact Int.ofNat_nonneg _
  · rw [hav]; omega
  · rw [hav, Int.toNat_ofNat]; exact e1
  · rw [hav, e2]

/-- C7 applied to a fresh driver holding the three bytes `013`. -/
theorem C7_availabe_counts_reads_witness :
    (availabe (enqueueAll (fresh false 4 17 27 22) [48, 49, 51])).1 = 3 ∧
    0 ≤ (availabe (enqueueAll (fresh false 4 17 27 22) [48, 49, 51])).1 ∧
    (availabe (enqueueAll (fresh false 4 17 27 22) [48, 49, 51])).1 ≤ 74 ∧
    ∃ vs : List Int,
      (readN ((availabe (enqueueAll (fresh false 4 17 27 22) [48, 49, 51])).1.toNat + 1)
        (enqueueAll (fresh false 4 17 27 22) [48, 49, 51])).1 = vs ++ [-1] ∧
      (vs.length : Int) = (availabe (enqueueAll (fresh false 4 17 27 22) [48, 49, 51])).1 ∧
      ∀ v ∈ vs, 0 ≤ v :=
  C7_availabe_counts_reads (enqueueAll (fresh false 4 17 27 22) [48, 49, 51])
    (by decide) (by decide) (by decide)

/-- C8 (counterexample): `emptyOverflowed` is an empty buffer (head == tail)
with the overflow flag set; `read()` returns -1 on it and the flag is clear
afterwards, so `read()` on an empty buffer does not leave both flags unchanged. -/
theorem C8_read_empty_clears_overflow :
    emptyOverflowed.rxBufferHead = emptyOverflowed.rxBufferTail ∧
    emptyOverflowed.bufferOverflow = true ∧
    (read emptyOverflowed).1 = -1 ∧
    (read emptyOverflowed).2.bufferOverflow = false ∧
    (read emptyOverflowed).2.bufferOverflow ≠ emptyOverflowed.bufferOverflow := by
  decide

/-- C8 (amended): for every state with head == tail, `read()` returns -1, leaves
head, tail, the buffer contents and the parity-error flag unchanged, and
leaves the overflow flag clear whatever it was before. -/
theorem C8_read_on_empty (s : Globals) (hempty : s.rxBufferHead = s.rxBufferTail) :
    (read s).1 = -1 ∧
    (read s).2.rxBufferHead = s.rxBufferHead ∧
    (read s).2.rxBufferTail = s.rxBufferTail ∧
    (read s).2.rxBuffer = s.rxBuffer ∧
    (read s).2.parityError = s.parityError ∧
    (read s).2.bufferOverflow = false := by
  rw [read_empty s hempty]
  exact ⟨rfl, rfl, rfl, rfl, rfl, rfl⟩

/-- C8 (amended) applied to the empty buffer with the overflow flag set. -/
theorem C8_read_on_empty_witness :
    (read emptyOverflowed).1 = -1 ∧
    (read emptyOverflowed).2.rxBufferHead = emptyOverflowed.rxBufferHead ∧
    (read emptyOverflowed).2.rxBufferTail = emptyOverflowed.rxBufferTail ∧
    (read emptyOverflowed).2.rxBuffer = emptyOverflowed.rxBuffer ∧
    (read emptyOverflowed).2.parityError = emptyOverflowed.parityError ∧
    (read emptyOverflowed).2.bufferOverflow = false :=
  C8_read_on_empty emptyOverflowed (by decide)

/-- C9: in every state `peek()` changes nothing (head, tail, buffer contents
and both flags are as before); and in every non-empty state with head < 75
whose array cells hold seven-bit values, `peek()` returns the value that an
immediately following `read()` returns. -/
theorem C9_peek_is_pure_and_agrees_with_read (s : Globals) :
    (peek s).2 = s ∧
    (s.rxBufferHead ≠ s.rxBufferTail → s.rxBufferHead < 75 →
      (∀ i : Nat, i < 75 → s.rxBuffer (i : Int) < 128) →
      (peek s).1 = (read (peek s).2).1) := by
  refine ⟨peek_state s, ?_⟩
  intro hne hh h7
  have hb := h7 s.rxBufferHead hh
  rw [peek_state, read_nonempty s hne]
  have hmod : s.rxBuffer (s.rxBufferHead : Int) % 256 = s.rxBuffer (s.rxBufferHead : Int) := by omega
  have hno : ¬ 128 ≤ s.rxBuffer (s.rxBufferHead : Int) := by omega
  simp [peek, hne, charToInt, hmod, hno]

/-- C9 applied to a fresh driver, with `char` signed, holding the bytes `01`. -/
theorem C9_peek_is_pure_and_agrees_with_read_witness :
    (peek (enqueueAll (fresh true 4 17 27 22) [48, 49])).1 = 48 ∧
    (read (peek (enqueueAll (fresh true 4 17 27 22) [48, 49])).2).1 = 48 ∧
    (peek (enqueueAll (fresh true 4 17 27 22) [48, 49])).1
      = (read (peek (enqueueAll (fresh true 4 17 27 22) [48, 49])).2).1 :=
  ⟨by decide, by decide,
    (C9_peek_is_pure_and_agrees_with_read (enqueueAll (fresh true 4 17 27 22) [48, 49])).2
      (by decide) (by decide)
      (by
        intro i hi
        show (Function.update (Function.update (fun _ => 0) ((0 : Nat) : Int) (48 &&& 0x7F))
          ((1 : Nat) : Int) (49 &&& 0x7F)) (i : Int) < 128
        by_cases h1 : (i : Int) = ((1 : Nat) : Int)
        · rw [h1, Function.update_same]; decide
        · rw [Function.update_noteq h1]
          by_cases h0 : (i : Int) = ((0 : Nat) : Int)
          · rw [h0, Function.update_same]; decide
          · rw [Function.update_noteq h0]; decide)⟩

/-- C10: from every state, whatever the head, the tail and the flags are,
after `flush()`: `availabe() == 0`, `peek() == -1`, `overflowStatus() == false`
and `parityErrorStatus() == false`. -/
theorem C10_flush_resets (s : Globals) :
    (availabe (flush s)).1 = 0 ∧
    (peek (flush s)).1 = -1 ∧
    (overflowStatus (flush s)).1 = false ∧
    (parityErrorStatus (flush s)).1 = false := by
  refine ⟨?_, ?_, rfl, rfl⟩
  · simp [availabe, flush, BUFFER_SIZE]
  · simp [peek, flush]

/-- When the tail is 0 and the ring is not empty, `LFCheck()` answers from the
cell at offset -1, which lies before the array; no enqueue writes that cell. -/
theorem LFCheck_at_tail_zero (s : Globals) (ht : s.rxBufferTail = 0) (hh : s.rxBufferHead ≠ 0) :
    (LFCheck s).1 = decide (charToInt s.charSigned (s.rxBuffer (-1)) = 10) := by
  have hne : s.rxBufferHead ≠ s.rxBufferTail := by rw [ht]; exact hh
  unfold LFCheck
  rw [if_neg hne, ht]
  by_cases h : charToInt s.charSigned (s.rxBuffer (-1)) = 10
  · simp [h]
  · simp [h]

/-- C11 (evaluation at the failing input): `wrappedTail 10` is reached from a
fresh driver by enqueues and `read()` calls; it holds 74 bytes (head = 1,
tail = 0), the most recently enqueued byte is 10 (it sits in cell 74 and is the
last byte returned by 74 reads), and `LFCheck()` returns false. -/
theorem C11_LFCheck_misses_wrapped_tail :
    (wrappedTail 10).rxBufferHead = 1 ∧
    (wrappedTail 10).rxBufferTail = 0 ∧
    (wrappedTail 10).bufferOverflow = false ∧
    (availabe (wrappedTail 10)).1 = 74 ∧
    (wrappedTail 10).rxBuffer 74 = 10 ∧
    (readN 74 (wrappedTail 10)).1.getLast? = some 10 ∧
    (LFCheck (wrappedTail 10)).1 = false := by
  decide

/-- C12 (evaluation at the failing input): `staleCR` is reached from a fresh
driver by enqueues and `read()` calls; it holds exactly one byte (head = 1,
tail = 2, the only byte read back is 'x') and `CRCheck()` returns true. -/
theorem C12_CRCheck_true_with_one_byte :
    staleCR.rxBufferHead = 1 ∧
    staleCR.rxBufferTail = 2 ∧
    staleCR.bufferOverflow = false ∧
    (availabe staleCR).1 = 1 ∧
    (readN 2 staleCR).1 = [120, -1] ∧
    (CRCheck staleCR).1 = true := by
  decide

/-- C13 (evaluation at the failing input): `straddling` holds two bytes with
head = 74 and tail = 1.  One discarded `read()` leaves head = 0 and the next
reads return 'y' and then -1; `advanceBufHead(1)` leaves head = 75, past the
end of the array, and 'y' is never returned by the reads that follow. -/
theorem C13_advanceBufHead_does_not_wrap :
    straddling.rxBufferHead = 74 ∧
    straddling.rxBufferTail = 1 ∧
    (availabe straddling).1 = 2 ∧
    (readN 1 straddling).2.rxBufferHead = 0 ∧
    (readN 1 straddling).2.rxBufferTail = 1 ∧
    (readN 2 (readN 1 straddling).2).1 = [121, -1] ∧
    (advanceBufHead straddling 1).rxBufferHead = 75 ∧
    (advanceBufHead straddling 1).rxBufferTail = 1 ∧
    (readN 2 (advanceBufHead straddling 1)).1 = [0, -1] := by
  decide

/-- The calls emitted between a state and the same state with a longer log. -/
theorem emitted_append (s : Globals) (evs : List Event) :
    emitted s { s with log := s.log ++ evs } = evs := by
  simp [emitted]

/-- Only the log is changed by `setState`, and what it appends does not depend
on the log it starts from. -/
theorem setState_frame (s : Globals) (state : Nat) :
    setState s state = { s with log := s.log ++ (setState { s with log := [] } state).log } := by
  unfold setState
  by_cases h2 : state = HOLDING
  · subst h2
    simp [HOLDING, digitalWrite, emit]
  by_cases h3 : state = TRANSMITTING
  · subst h3
    simp [HOLDING, TRANSMITTING, digitalWrite, emit]
  by_cases h4 : state = LISTENING
  · subst h4
    simp [LISTENING, HOLDING, TRANSMITTING, DISABLED, INTERRUPTENABLED, digitalWrite, emit, cout,
      coutUnsigned]
  by_cases h0 : state = DISABLED
  · subst h0
    simp [LISTENING, HOLDING, TRANSMITTING, DISABLED, digitalWrite, emit, system]
  by_cases h5 : state = INTERRUPTENABLED
  · subst h5
    simp [LISTENING, HOLDING, TRANSMITTING, DISABLED, INTERRUPTENABLED, digitalWrite, emit, system,
      pullUpDnControl, pullPuDnControl, delay]
  · simp [h2, h3, h4, h0, h5, emit, cout, coutUnsigned]

/-- Only the log is changed by `wakeSensors`. -/
theorem wakeSensors_frame (s : Globals) :
    wakeSensors s = { s with log := s.log ++
      ((setState { s with log := [] } TRANSMITTING).log ++
        [Event.digitalWrite s.txDataPin LOW, Event.delayMicroseconds 14161,
         Event.digitalWrite s.txDataPin HIGH, Event.delayMicroseconds 10000]) } := by
  unfold wakeSensors
  rw [setState_frame s TRANSMITTING]
  simp [digitalWrite, delayMicroseconds, emit]

/-- The payload loop of `writeChar` changes only the log, by appending to it. -/
theorem foldl_writeBit_frame (out : Nat) (masks : List Nat) :
    ∀ s : Globals, ∃ evs, masks.foldl (writeBit out) s = { s with log := s.log ++ evs } := by
  induction masks with
  | nil => intro s; exact ⟨[], by simp⟩
  | cons m ms ih =>
    intro s
    obtain ⟨e1, h1⟩ : ∃ e1, writeBit out s m = { s with log := s.log ++ e1 } := by
      unfold writeBit
      split
      · exact ⟨[Event.digitalWrite s.txDataPin HIGH, Event.delayMicroseconds SPACING],
          by simp [digitalWrite, delayMicroseconds, emit]⟩
      · exact ⟨[Event.digitalWrite s.txDataPin LOW, Event.delayMicroseconds SPACING],
          by simp [digitalWrite, delayMicroseconds, emit]⟩
    obtain ⟨e2, h2⟩ := ih { s with log := s.log ++ e1 }
    refine ⟨e1 ++ e2, ?_⟩
    show ms.foldl (writeBit out) (writeBit out s m) = _
    rw [h1, h2]
    simp

/-- Only the log is changed by `writeChar`, and what it appends does not depend
on the log it starts from. -/
theorem writeChar_frame (s : Globals) (out : Nat) :
    writeChar s out = { s with log := s.log ++ (writeChar { s with log := [] } out).log } := by
  obtain ⟨evs, h⟩ : ∃ evs, writeChar s out = { s with log := s.log ++ evs } := by
    unfold writeChar
    simp only [digitalWrite, delayMicroseconds, emit]
    obtain ⟨e2, h2⟩ := foldl_writeBit_frame
      ((out % 256 ||| evenParityBit (out % 256) <<< 7) % 256) (txMasks 256 0x01)
      { s with log := s.log ++ [Event.digitalWrite s.txDataPin LOW] ++ [Event.delayMicroseconds 820] }
    rw [h2]
    exact ⟨[Event.digitalWrite s.txDataPin LOW] ++ [Event.delayMicroseconds 820] ++ e2
      ++ [Event.digitalWrite s.txDataPin HIGH] ++ [Event.delayMicroseconds 820], by simp⟩
  have hl := writeChar_log s out
  have hb := writeChar_log { s with log := [] } out
  rw [h] at hl
  have hev := List.append_cancel_left hl
  rw [h, hb, hev]
  simp

/-- A run of `writeChar` calls appends the frames of the bytes, in order, and
changes nothing else. -/
theorem foldl_writeChar_frame (cmd : List Nat) :
    ∀ s : Globals, cmd.foldl writeChar s
      = { s with log := s.log ++ cmd.flatMap (fun b => (writeChar { s with log := [] } b).log) } := by
  induction cmd with
  | nil => intro s; simp
  | cons b bs ih =>
    intro s
    show bs.foldl writeChar (writeChar s b) = _
    rw [ih (writeChar s b)]
    rw [writeChar_frame s b]
    simp [List.flatMap_cons]

/-- The pin writes of a concatenation. -/
theorem writes_append (evs evs2 : List Event) : writes (evs ++ evs2) = writes evs ++ writes evs2 := by
  simp [writes, List.filterMap_append]

/-- Every call of `writeChar` makes ten pin writes, whatever the byte. -/
theorem writeChar_ten_writes (s : Globals) (out : Nat) :
    (writes (emitted s (writeChar s out))).length = 10 := by
  unfold emitted
  rw [writeChar_log, List.drop_left, txMasks_eq]
  simp [writes]

/-- The frames of a command make ten pin writes per byte. -/
theorem frames_ten_writes_each (s : Globals) (cmd : List Nat) :
    (writes (cmd.flatMap (fun b => emitted s (writeChar s b)))).length = 10 * cmd.length := by
  induction cmd with
  | nil => rfl
  | cons b bs ih =>
    rw [List.flatMap_cons, writes_append, List.length_append, ih, writeChar_ten_writes,
      List.length_cons]
    omega

/-- C14: for every command string, the external calls made by
`sendCommand(cmd)` (in particular its pin writes and delays) are those of
`wakeSensors()`, followed by those of `writeChar` on each byte of `cmd` in
order, followed by those of `setState(LISTENING)`; the frames contribute ten
pin writes per byte of `cmd`, none for the empty string. -/
theorem C14_sendCommand_sequence (s : Globals) (cmd : List Nat) :
    emitted s (sendCommand s cmd)
      = emitted s (wakeSensors s)
        ++ cmd.flatMap (fun b => emitted s (writeChar s b))
        ++ emitted s (setState s LISTENING) ∧
    pinWritesAndDelays (emitted s (sendCommand s cmd))
      = pinWritesAndDelays (emitted s (wakeSensors s))
        ++ cmd.flatMap (fun b => pinWritesAndDelays (emitted s (writeChar s b)))
        ++ pinWritesAndDelays (emitted s (setState s LISTENING)) ∧
    (writes (cmd.flatMap (fun b => emitted s (writeChar s b)))).length = 10 * cmd.length := by
  have hw : ∀ b, emitted s (writeChar s b) = (writeChar { s with log := [] } b).log := by
    intro b
    rw [writeChar_frame s b, emitted_append]
  have hwake : emitted s (wakeSensors s)
      = (setState { s with log := [] } TRANSMITTING).log ++
        [Event.digitalWrite s.txDataPin LOW, Event.delayMicroseconds 14161,
         Event.digitalWrite s.txDataPin HIGH, Event.delayMicroseconds 10000] := by
    rw [wakeSensors_frame s, emitted_append]
  have hlisten : emitted s (setState s LISTENING) = (setState { s with log := [] } LISTENING).log := by
    rw [setState_frame s LISTENING, emitted_append]
  have hmain : emitted s (sendCommand s cmd)
      = emitted s (wakeSensors s)
        ++ cmd.flatMap (fun b => emitted s (writeChar s b))
        ++ emitted s (setState s LISTENING) := by
    have hsend : sendCommand s cmd = { s with log := s.log ++
        (emitted s (wakeSensors s) ++ cmd.flatMap (fun b => emitted s (writeChar s b))
          ++ emitted s (setState s LISTENING)) } := by
      unfold sendCommand
      simp only [hw, hwake, hlisten]
      rw [wakeSensors_frame s, foldl_writeChar_frame, setState_frame]
      simp
    rw [hsend, emitted_append]
  refine ⟨hmain, ?_, ?_⟩
  · rw [hmain]
    simp [pinWritesAndDelays, List.filter_append, List.filter_flatMap]
  · exact frames_ten_writes_each s cmd

/-- The external calls of `setState(TRANSMITTING)`. -/
theorem setState_TRANSMITTING_calls (s : Globals) :
    emitted s (setState s TRANSMITTING)
      = [Event.digitalWrite s.rxEnable HIGH, Event.digitalWrite s.txEnable LOW] := by
  rw [setState_frame s TRANSMITTING, emitted_append]
  simp [setState, HOLDING, TRANSMITTING, digitalWrite, emit]

/-- C15: `wakeSensors()` first makes the calls of `setState(TRANSMITTING)` (two
enable-pin writes, no delay) and then exactly four more calls: a write of the
tx data pin held for 14161 microseconds (the break) and a write of the
opposite level held for 10000 microseconds (the mark). -/
theorem C15_wakeSensors_break_then_mark (s : Globals) :
    emitted s (wakeSensors s)
      = emitted s (setState s TRANSMITTING)
        ++ [Event.digitalWrite s.txDataPin LOW, Event.delayMicroseconds 14161,
            Event.digitalWrite s.txDataPin HIGH, Event.delayMicroseconds 10000] ∧
    emitted s (setState s TRANSMITTING)
      = [Event.digitalWrite s.rxEnable HIGH, Event.digitalWrite s.txEnable LOW] ∧
    holds (emitted s (wakeSensors s))
      = [(s.rxEnable, HIGH, 0), (s.txEnable, LOW, 0),
         (s.txDataPin, LOW, 14161), (s.txDataPin, HIGH, 10000)] ∧
    totalDelay (emitted s (wakeSensors s)) = 14161 + 10000 ∧
    LOW ≠ HIGH := by
  have hT := setState_TRANSMITTING_calls s
  have hwake : emitted s (wakeSensors s)
      = emitted s (setState s TRANSMITTING)
        ++ [Event.digitalWrite s.txDataPin LOW, Event.delayMicroseconds 14161,
            Event.digitalWrite s.txDataPin HIGH, Event.delayMicroseconds 10000] := by
    rw [wakeSensors_frame s, emitted_append, setState_frame s TRANSMITTING, emitted_append]
  refine ⟨hwake, hT, ?_, ?_, by decide⟩
  · rw [hwake, hT]; rfl
  · rw [hwake, hT]; rfl

/-- The timed intervals of `writeChar`: ten writes of the tx data pin, the
first and the last held for 820 microseconds and the eight between them for
`SPACING` each. -/
theorem writeChar_holds (s : Globals) (out : Nat) :
    (holds (emitted s (writeChar s out))).map (fun h => (h.1, h.2.2))
      = [(s.txDataPin, 820), (s.txDataPin, 805), (s.txDataPin, 805), (s.txDataPin, 805),
         (s.txDataPin, 805), (s.txDataPin, 805), (s.txDataPin, 805), (s.txDataPin, 805),
         (s.txDataPin, 805), (s.txDataPin, 820)] ∧
    totalDelay (emitted s (writeChar s out)) = 8080 := by
  unfold emitted
  rw [writeChar_log, List.drop_left, txMasks_eq]
  simp [holds, holdTime, totalDelay, SPACING]

/-- C16 (counterexample): in the frame that `writeChar` sends for the byte '0'
the start bit and the stop bit are each held for 820 microseconds, not 805,
and the delays of the frame add up to 8080 microseconds, not 8050. -/
theorem C16_start_and_stop_held_820 :
    (holds (emitted (fresh false 4 17 27 22) (writeChar (fresh false 4 17 27 22) 48))).head?
      = some (17, LOW, 820) ∧
    (holds (emitted (fresh false 4 17 27 22) (writeChar (fresh false 4 17 27 22) 48))).getLast?
      = some (17, HIGH, 820) ∧
    totalDelay (emitted (fresh false 4 17 27 22) (writeChar (fresh false 4 17 27 22) 48)) = 8080 ∧
    totalDelay (emitted (fresh false 4 17 27 22) (writeChar (fresh false 4 17 27 22) 48)) ≠ 8050 := by
  decide

/-- C16 (amended): for every byte, `writeChar` holds the start bit for 820
microseconds, each of the eight payload bits (seven data bits and the parity
bit) for exactly 805 microseconds, and the stop bit for 820 microseconds, so
one character occupies exactly 8080 microseconds of delay. -/
theorem C16_bit_periods (s : Globals) (out : Nat) :
    (holds (emitted s (writeChar s out))).map (fun h => h.2.2)
      = [820, SPACING, SPACING, SPACING, SPACING, SPACING, SPACING, SPACING, SPACING, 820] ∧
    SPACING = 805 ∧
    (holds (emitted s (writeChar s out))).map (fun h => h.1) = List.replicate 10 s.txDataPin ∧
    totalDelay (emitted s (writeChar s out)) = 8080 ∧
    820 + 8 * SPACING + 820 = 8080 := by
  obtain ⟨h1, h2⟩ := writeChar_holds s out
  have ha := congrArg (List.map Prod.snd) h1
  have hb := congrArg (List.map Prod.fst) h1
  simp only [List.map_map] at ha hb
  refine ⟨?_, rfl, ?_, h2, rfl⟩
  · exact ha
  · exact hb

/-- C17 (evaluation at the failing input): on a driver with txEnable = 4,
txDataPin = 17, rxEnable = 27, `setState(HOLDING)` writes rxEnable HIGH,
txEnable HIGH and txDataPin LOW, so the last levels are (HIGH, LOW, HIGH) and
not the (HIGH, HIGH, LOW) of the table; the other rows of the table are met. -/
theorem C17_HOLDING_levels_swapped :
    writes (emitted (fresh false 4 17 27 22) (setState (fresh false 4 17 27 22) HOLDING))
      = [(27, HIGH), (4, HIGH), (17, LOW)] ∧
    lastLevel 27 (emitted (fresh false 4 17 27 22) (setState (fresh false 4 17 27 22) HOLDING))
      = some HIGH ∧
    lastLevel 17 (emitted (fresh false 4 17 27 22) (setState (fresh false 4 17 27 22) HOLDING))
      = some LOW ∧
    lastLevel 4 (emitted (fresh false 4 17 27 22) (setState (fresh false 4 17 27 22) HOLDING))
      = some HIGH ∧
    writes (emitted (fresh false 4 17 27 22) (setState (fresh false 4 17 27 22) TRANSMITTING))
      = [(27, HIGH), (4, LOW)] ∧
    writes (emitted (fresh false 4 17 27 22) (setState (fresh false 4 17 27 22) LISTENING))
      = [(4, HIGH), (27, LOW)] ∧
    writes (emitted (fresh false 4 17 27 22) (setState (fresh false 4 17 27 22) DISABLED))
      = [(27, HIGH), (4, HIGH)] ∧
    writes (emitted (fresh false 4 17 27 22) (setState (fresh false 4 17 27 22) INTERRUPTENABLED))
      = [(27, HIGH), (17, HIGH), (4, LOW)] ∧
    writes (emitted (fresh false 4 17 27 22) (setState (fresh false 4 17 27 22) ENABLED)) = [] ∧
    writes (emitted (fresh false 4 17 27 22) (setState (fresh false 4 17 27 22) 6)) = [] := by
  decide

/-- The parity-error flag is not touched by `setState`. -/
theorem setState_parityError (s : Globals) (state : Nat) :
    (setState s state).parityError = s.parityError := by
  rw [setState_frame s state]

/-- C18 (counterexample): after `begin()` on a fresh driver one received frame
sets the parity-error flag; `end()` followed by `begin()` leaves it set, so
`parityErrorStatus()` still returns true. -/
theorem C18_stop_start_keeps_parityError :
    (handleInterrupt (begin (fresh false 4 17 27 22)) (wellFormedFrame 48) 0).parityError = true ∧
    (parityErrorStatus (begin (end_
      (handleInterrupt (begin (fresh false 4 17 27 22)) (wellFormedFrame 48) 0)))).1 = true ∧
    (parityErrorStatus (begin (end_
      (handleInterrupt (begin (fresh false 4 17 27 22)) (wellFormedFrame 48) 0)))).1 ≠ false := by
  decide

/-- C18 (amended): for every state in which parityError is set, after `end()`
followed by `begin()` `parityErrorStatus()` still returns true; `flush()`
clears the flag. -/
theorem C18_parityError_survives_stop_start (s : Globals) (hp : s.parityError = true) :
    (parityErrorStatus (begin (end_ s))).1 = true ∧
    (parityErrorStatus (flush s)).1 = false := by
  refine ⟨?_, rfl⟩
  show (setState (setState s DISABLED) INTERRUPTENABLED).parityError = true
  rw [setState_parityError, setState_parityError, hp]

/-- C18 (amended) applied to the state left by one received frame. -/
theorem C18_parityError_survives_stop_start_witness :
    (parityErrorStatus (begin (end_
      (handleInterrupt (begin (fresh false 4 17 27 22)) (wellFormedFrame 48) 0)))).1 = true ∧
    (parityErrorStatus (flush
      (handleInterrupt (begin (fresh false 4 17 27 22)) (wellFormedFrame 48) 0))).1 = false :=
  C18_parityError_survives_stop_start
    (handleInterrupt (begin (fresh false 4 17 27 22)) (wellFormedFrame 48) 0) (by decide)

/-- C19: in every state in which parityError is set, `handleInterrupt` makes
no call other than printing its message (no `digitalRead`, no delay, no pin
write) and leaves head, tail, the buffer contents, overflow and parityError
unchanged, whatever levels the line would present. -/
theorem C19_handleInterrupt_refuses (s : Globals) (rx : Nat → Nat) (stray : Nat)
    (hp : s.parityError = true) :
    (handleInterrupt s rx stray).rxBufferHead = s.rxBufferHead ∧
    (handleInterrupt s rx stray).rxBufferTail = s.rxBufferTail ∧
    (handleInterrupt s rx stray).rxBuffer = s.rxBuffer ∧
    (handleInterrupt s rx stray).bufferOverflow = s.bufferOverflow ∧
    (handleInterrupt s rx stray).parityError = s.parityError ∧
    emitted s (handleInterrupt s rx stray)
      = [Event.cout "handleInterrupt() error : parity error is true: \n"] ∧
    (∀ pin, Event.digitalRead pin ∉ emitted s (handleInterrupt s rx stray)) ∧
    pinWritesAndDelays (emitted s (handleInterrupt s rx stray)) = [] ∧
    totalDelay (emitted s (handleInterrupt s rx stray)) = 0 := by
  have h : handleInterrupt s rx stray = { s with log := s.log ++
      [Event.cout "handleInterrupt() error : parity error is true: \n"] } := by
    simp [handleInterrupt, hp, cout, emit]
  rw [h, emitted_append]
  refine ⟨rfl, rfl, rfl, rfl, rfl, rfl, ?_, rfl, rfl⟩
  intro pin hmem
  simp at hmem

/-- C19 applied to the state left by one received frame, with the line held
LOW. -/
theorem C19_handleInterrupt_refuses_witness :
    emitted (handleInterrupt (begin (fresh false 4 17 27 22)) (wellFormedFrame 48) 0)
      (handleInterrupt (handleInterrupt (begin (fresh false 4 17 27 22)) (wellFormedFrame 48) 0)
        (fun _ => LOW) 0)
      = [Event.cout "handleInterrupt() error : parity error is true: \n"] :=
  (C19_handleInterrupt_refuses
    (handleInterrupt (begin (fresh false 4 17 27 22)) (wellFormedFrame 48) 0)
    (fun _ => LOW) 0 (by decide)).2.2.2.2.2.1

/-- C20 (evaluation at the failing input): after `begin()` on a fresh driver
(parityError clear), an interrupt whose first sample of the receive pin is HIGH
runs the store at the end of `receiveChar`: whatever value `newChar` denotes
there, the tail moves from 0 to 1, `availabe()` becomes 1 and the next `read()`
returns a byte. -/
theorem C20_spurious_edge_enqueues :
    (begin (fresh false 4 17 27 22)).parityError = false ∧
    (begin (fresh false 4 17 27 22)).rxBufferTail = 0 ∧
    (availabe (begin (fresh false 4 17 27 22))).1 = 0 ∧
    ∀ stray : Nat,
      (handleInterrupt (begin (fresh false 4 17 27 22)) (fun _ => HIGH) stray).rxBufferTail = 1 ∧
      (availabe (handleInterrupt (begin (fresh false 4 17 27 22)) (fun _ => HIGH) stray)).1 = 1 ∧
      (read (handleInterrupt (begin (fresh false 4 17 27 22)) (fun _ => HIGH) stray)).1
        = (((stray &&& 0x7F) % 256 : Nat) : Int) ∧
      (handleInterrupt (begin (fresh false 4 17 27 22)) (fun _ => HIGH) stray).parityError = false := by
  refine ⟨rfl, rfl, by decide, ?_⟩
  intro stray
  have hh : (handleInterrupt (begin (fresh false 4 17 27 22)) (fun _ => HIGH) stray).rxBufferHead
      = 0 := rfl
  have ht : (handleInterrupt (begin (fresh false 4 17 27 22)) (fun _ => HIGH) stray).rxBufferTail
      = 1 := rfl
  have ho : (handleInterrupt (begin (fresh false 4 17 27 22)) (fun _ => HIGH) stray).bufferOverflow
      = false := rfl
  refine ⟨ht, ?_, rfl, rfl⟩
  rw [availabe_eq_stored _ (by rw [hh]; decide) ho]
  simp [stored, hh, ht, BUFFER_SIZE]

/-- Discarding `n` stored bytes with `read()` moves the head `n` slots round
the ring and leaves the tail and the buffer memory alone. -/
theorem readN_head (n : Nat) :
    ∀ s : Globals, s.rxBufferHead < 75 → s.rxBufferTail < 75 → n ≤ stored s →
      (readN n s).2.rxBufferHead = (s.rxBufferHead + n) % 75 ∧
      (readN n s).2.rxBufferTail = s.rxBufferTail ∧
      (readN n s).2.rxBuffer = s.rxBuffer := by
  induction n with
  | zero =>
    intro s hh _ _
    exact ⟨(Nat.mod_eq_of_lt hh).symm, rfl, rfl⟩
  | succ n ih =>
    intro s hh ht hn
    have hne : s.rxBufferHead ≠ s.rxBufferTail := by
      intro he
      simp [stored, BUFFER_SIZE, he] at hn
    obtain ⟨h1, h2, h3, _, _⟩ := read_contents s hh ht hne
    obtain ⟨i1, i2, i3⟩ := ih (read s).2 h1 (h2 ▸ ht) (by omega)
    have hhead : (read s).2.rxBufferHead = (s.rxBufferHead + 1) % 75 := by
      rw [read_nonempty s hne]; rfl
    have hbuf : (read s).2.rxBuffer = s.rxBuffer := by
      rw [read_nonempty s hne]
    refine ⟨?_, ?_, ?_⟩
    · show (readN n (read s).2).2.rxBufferHead = _
      rw [i1, hhead]; omega
    · show (readN n (read s).2).2.rxBufferTail = _
      rw [i2, h2]
    · show (readN n (read s).2).2.rxBuffer = _
      rw [i3, hbuf]

/-- As long as the head does not pass the end of the array, `advanceBufHead(n)`
leaves head, tail and buffer memory as `n` discarded `read()` calls do. -/
theorem advanceBufHead_eq_reads_without_wrap (s : Globals) (n : Nat)
    (hh : s.rxBufferHead < 75) (ht : s.rxBufferTail < 75) (hn : n ≤ stored s)
    (hw : s.rxBufferHead + n < 75) :
    (advanceBufHead s (n : Int)).rxBufferHead = (readN n s).2.rxBufferHead ∧
    (advanceBufHead s (n : Int)).rxBufferTail = (readN n s).2.rxBufferTail ∧
    (advanceBufHead s (n : Int)).rxBuffer = (readN n s).2.rxBuffer := by
  obtain ⟨r1, r2, r3⟩ := readN_head n s hh ht hn
  refine ⟨?_, r2.symm, r3.symm⟩
  rw [r1, Nat.mod_eq_of_lt hw]
  show toUInt8 ((s.rxBufferHead : Int) + (n : Int)) = s.rxBufferHead + n
  unfold toUInt8
  omega

/-- The sampling loop of `receiveChar` leaves by its own exit test after the
eight values `0x01 .. 0x80` of `i`. -/
theorem rxMasks_eq : rxMasks 65536 0x1 = [1, 2, 4, 8, 16, 32, 64, 128] := by decide

/-- The sampling loop changes only the log: per value of `i` it appends one
delay of 800 microseconds, one `digitalRead` of the rx data pin and the two
texts of the level message.  It yields `sampledByte` and has then made one
`digitalRead` call per value of `i`. -/
theorem sampleLoop_frame (rx : Nat → Nat) (masks : List Nat) :
    ∀ (k : Nat) (s : Globals) (newChar : Nat),
      sampleLoop rx masks k s newChar =
        ({ s with log := s.log ++ (List.range masks.length).flatMap (fun j =>
            [Event.delayMicroseconds 800, Event.digitalRead s.rxDataPin,
             Event.cout (if rx (k + j) = 0 then "pin level LOW : " else "pin level HIGH : "),
             Event.cout "\n"]) },
         sampledByte rx masks k newChar, k + masks.length) := by
  induction masks with
  | nil => intro k s newChar; simp [sampleLoop, sampledByte]
  | cons i rest ih =>
    intro k s newChar
    have hidx : ∀ j, k + 1 + j = k + (j + 1) := by intro j; omega
    by_cases h : rx k = 0
    · simp only [sampleLoop, sampledByte, digitalRead, delayMicroseconds, cout, emit, h, if_true]
      rw [ih]
      simp [List.range_succ_eq_map, List.flatMap_cons, List.flatMap_map, h, hidx,
        Nat.add_assoc, Nat.add_comm 1]
    · simp only [sampleLoop, sampledByte, digitalRead, delayMicroseconds, cout, emit, h, if_false]
      rw [ih]
      simp [List.range_succ_eq_map, List.flatMap_cons, List.flatMap_map, h, hidx,
        Nat.add_assoc, Nat.add_comm 1]

/-- The external calls of `setState(DISABLED)`. -/
theorem setState_DISABLED_eq (s : Globals) :
    setState s DISABLED = { s with log := s.log ++
      [Event.system "gpio edge 22 none", Event.digitalWrite s.rxEnable HIGH,
       Event.digitalWrite s.txEnable HIGH] } := by
  simp [setState, HOLDING, TRANSMITTING, LISTENING, DISABLED, digitalWrite, system, emit]

/-- A run of `receiveChar` whose first sample is LOW: ten `digitalRead` calls
(start, eight in the loop, stop), then the parity-error flag is set and
`setState(DISABLED)` is performed, whatever the samples are; nothing else
changes. -/
theorem receiveChar_start_LOW (s : Globals) (rx : Nat → Nat) (stray : Nat) (h0 : rx 0 = 0) :
    receiveChar s rx stray = { s with
      parityError := true,
      log := s.log ++
        ([Event.digitalRead s.rxDataPin, Event.delayMicrosecnds 20] ++
         (List.range 8).flatMap (fun j =>
            [Event.delayMicroseconds 800, Event.digitalRead s.rxDataPin,
             Event.cout (if rx (1 + j) = 0 then "pin level LOW : " else "pin level HIGH : "),
             Event.cout "\n"]) ++
         [Event.delayMicroseconds 650, Event.digitalRead s.rxDataPin,
          Event.cout (if rx 9 = 0
            then "receiveChar() Incorrect stop bit : - parityError set to true and interrupt disabled \n"
            else "receiveChar() parity error: - parityError set to true - check parityError()\n")] ++
         [Event.system "gpio edge 22 none", Event.digitalWrite s.rxEnable HIGH,
          Event.digitalWrite s.txEnable HIGH]) } := by
  unfold receiveChar
  simp only [digitalRead, h0, if_true, rxMasks_eq, sampleLoop_frame, delayMicrosecnds,
    delayMicroseconds, emit, cout, end_, setState_DISABLED_eq]
  by_cases h9 : rx 9 = 0
  · simp [h9]
  · simp [h9]

/-- With the parity-error flag clear `handleInterrupt` runs `receiveChar`. -/
theorem handleInterrupt_clear (s : Globals) (rx : Nat → Nat) (stray : Nat)
    (hp : s.parityError = false) : handleInterrupt s rx stray = receiveChar s rx stray := by
  simp [handleInterrupt, hp]

/-- The calls emitted up to a state whose log extends that of `s`. -/
theorem emitted_of_log (s t : Globals) (evs : List Event) (h : t.log = s.log ++ evs) :
    emitted s t = evs := by
  simp [emitted, h]

/-- C21: for every state with parityError clear and every frame whose start
sample is LOW and whose stop-bit sample (the tenth `digitalRead`) is LOW,
`receiveChar` (reached through `handleInterrupt`) sets parityError, ends with
the calls of `setState(DISABLED)` after printing the stop-bit message, and
leaves head, tail, the buffer contents and overflow unchanged. -/
theorem C21_bad_stop_bit (s : Globals) (rx : Nat → Nat) (stray : Nat)
    (hp : s.parityError = false) (hstart : rx 0 = 0) (hstop : rx 9 = 0) :
    handleInterrupt s rx stray = receiveChar s rx stray ∧
    (receiveChar s rx stray).parityError = true ∧
    (receiveChar s rx stray).rxBufferHead = s.rxBufferHead ∧
    (receiveChar s rx stray).rxBufferTail = s.rxBufferTail ∧
    (receiveChar s rx stray).rxBuffer = s.rxBuffer ∧
    (receiveChar s rx stray).bufferOverflow = s.bufferOverflow ∧
    ∃ sampling : List Event,
      emitted s (receiveChar s rx stray) = sampling ++
        [Event.cout "receiveChar() Incorrect stop bit : - parityError set to true and interrupt disabled \n"]
        ++ emitted s (setState s DISABLED) ∧
      writes sampling = [] := by
  refine ⟨handleInterrupt_clear s rx stray hp, ?_⟩
  have hr := receiveChar_start_LOW s rx stray hstart
  rw [emitted_of_log s (receiveChar s rx stray) _ (by rw [hr]), setState_DISABLED_eq,
    emitted_append, hr]
  refine ⟨rfl, rfl, rfl, rfl, rfl, ?_⟩
  refine ⟨[Event.digitalRead s.rxDataPin, Event.delayMicrosecnds 20] ++
      (List.range 8).flatMap (fun j =>
        [Event.delayMicroseconds 800, Event.digitalRead s.rxDataPin,
         Event.cout (if rx (1 + j) = 0 then "pin level LOW : " else "pin level HIGH : "),
         Event.cout "\n"]) ++
      [Event.delayMicroseconds 650, Event.digitalRead s.rxDataPin], ?_, ?_⟩
  · simp [hstop]
  · simp [writes, List.filterMap_flatMap, List.flatMap_def]

/-- C21 applied after `begin()` on a fresh driver to a line that stays LOW. -/
theorem C21_bad_stop_bit_witness :
    (receiveChar (begin (fresh false 4 17 27 22)) (fun _ => LOW) 0).parityError = true ∧
    (receiveChar (begin (fresh false 4 17 27 22)) (fun _ => LOW) 0).rxBufferTail
      = (begin (fresh false 4 17 27 22)).rxBufferTail :=
  ⟨(C21_bad_stop_bit (begin (fresh false 4 17 27 22)) (fun _ => LOW) 0 rfl rfl rfl).2.1,
   (C21_bad_stop_bit (begin (fresh false 4 17 27 22)) (fun _ => LOW) 0 rfl rfl rfl).2.2.2.1⟩

/-- C23: for every state with parityError clear and every frame whose start
sample is LOW and whose stop-bit sample is HIGH, whatever the eight samples
between them are, `receiveChar` sets parityError, ends with the calls of
`setState(DISABLED)` after printing the parity message, and leaves head, tail,
the buffer contents and overflow unchanged; and no frame whose start sample is
LOW, whatever its other samples, changes head, tail or the buffer contents. -/
theorem C23_good_stop_bit_still_rejected (s : Globals) (rx : Nat → Nat) (stray : Nat)
    (hp : s.parityError = false) (hstart : rx 0 = 0) (hstop : rx 9 ≠ 0) :
    handleInterrupt s rx stray = receiveChar s rx stray ∧
    (receiveChar s rx stray).parityError = true ∧
    (receiveChar s rx stray).rxBufferHead = s.rxBufferHead ∧
    (receiveChar s rx stray).rxBufferTail = s.rxBufferTail ∧
    (receiveChar s rx stray).rxBuffer = s.rxBuffer ∧
    (receiveChar s rx stray).bufferOverflow = s.bufferOverflow ∧
    (∃ sampling : List Event,
      emitted s (receiveChar s rx stray) = sampling ++
        [Event.cout "receiveChar() parity error: - parityError set to true - check parityError()\n"]
        ++ emitted s (setState s DISABLED) ∧
      writes sampling = []) ∧
    (∀ (frame : Nat → Nat) (other : Nat), frame 0 = 0 →
      (handleInterrupt s frame other).rxBufferHead = s.rxBufferHead ∧
      (handleInterrupt s frame other).rxBufferTail = s.rxBufferTail ∧
      (handleInterrupt s frame other).rxBuffer = s.rxBuffer ∧
      (handleInterrupt s frame other).bufferOverflow = s.bufferOverflow) := by
  refine ⟨handleInterrupt_clear s rx stray hp, ?_⟩
  have hr := receiveChar_start_LOW s rx stray hstart
  rw [emitted_of_log s (receiveChar s rx stray) _ (by rw [hr]), setState_DISABLED_eq,
    emitted_append, hr]
  refine ⟨rfl, rfl, rfl, rfl, rfl, ?_, ?_⟩
  · refine ⟨[Event.digitalRead s.rxDataPin, Event.delayMicrosecnds 20] ++
        (List.range 8).flatMap (fun j =>
          [Event.delayMicroseconds 800, Event.digitalRead s.rxDataPin,
           Event.cout (if rx (1 + j) = 0 then "pin level LOW : " else "pin level HIGH : "),
           Event.cout "\n"]) ++
        [Event.delayMicroseconds 650, Event.digitalRead s.rxDataPin], ?_, ?_⟩
    · simp [hstop]
    · simp [writes, List.filterMap_flatMap, List.flatMap_def]
  · intro frame other hf
    rw [handleInterrupt_clear s frame other hp, receiveChar_start_LOW s frame other hf]
    exact ⟨rfl, rfl, rfl, rfl⟩

/-- C23 applied after `begin()` on a fresh driver to the well-formed frame of
the byte 'a'. -/
theorem C23_good_stop_bit_still_rejected_witness :
    (receiveChar (begin (fresh false 4 17 27 22)) (wellFormedFrame 97) 0).parityError = true ∧
    (receiveChar (begin (fresh false 4 17 27 22)) (wellFormedFrame 97) 0).rxBufferTail
      = (begin (fresh false 4 17 27 22)).rxBufferTail :=
  ⟨(C23_good_stop_bit_still_rejected (begin (fresh false 4 17 27 22)) (wellFormedFrame 97) 0
      rfl (by decide) (by decide)).2.1,
   (C23_good_stop_bit_still_rejected (begin (fresh false 4 17 27 22)) (wellFormedFrame 97) 0
      rfl (by decide) (by decide)).2.2.2.1⟩

/-- The sampled byte depends on the samples only through which of them are
zero, and only on the samples the loop consults. -/
theorem sampledByte_congr (rx rx2 : Nat → Nat) (masks : List Nat) :
    ∀ (k newChar : Nat),
      (∀ j, k ≤ j → j < k + masks.length → (rx j = 0 ↔ rx2 j = 0)) →
      sampledByte rx masks k newChar = sampledByte rx2 masks k newChar := by
  induction masks with
  | nil => intro k newChar _; rfl
  | cons i rest ih =>
    intro k newChar h
    have hk : rx k = 0 ↔ rx2 k = 0 := h k (Nat.le_refl k) (by simp)
    have hrest : ∀ j, k + 1 ≤ j → j < k + 1 + rest.length → (rx j = 0 ↔ rx2 j = 0) := by
      intro j h1 h2
      exact h j (by omega) (by simp only [List.length_cons]; omega)
    by_cases h0 : rx k = 0
    · have h0' : rx2 k = 0 := hk.mp h0
      simp only [sampledByte, h0, h0', if_true]
      exact ih (k + 1) _ hrest
    · have h0' : ¬ rx2 k = 0 := fun hc => h0 (hk.mpr hc)
      simp only [sampledByte, h0, h0', if_false]
      exact ih (k + 1) _ hrest

/-- On the eight masks of the loop, started with `newChar = 0` after the start
sample, bit `j` of the sampled byte is set exactly when sample `j + 1` is HIGH. -/
theorem sampledByte_bits_of_bools :
    ∀ b0 b1 b2 b3 b4 b5 b6 b7 : Bool, ∀ j : Fin 8,
      (sampledByte (levelsOfBools [false, b0, b1, b2, b3, b4, b5, b6, b7])
        [1, 2, 4, 8, 16, 32, 64, 128] 1 0).testBit j.val
      = [b0, b1, b2, b3, b4, b5, b6, b7].getD j.val false := by
  decide

/-- Bit `j` of the working byte, for `j = 0..7`, is set exactly when the sample
taken by iteration `j` of the loop (the `digitalRead` call number `j + 1`) is
not LOW. -/
theorem sampledByte_bits (rx : Nat → Nat) (j : Nat) (hj : j < 8) :
    (sampledByte rx [1, 2, 4, 8, 16, 32, 64, 128] 1 0).testBit j = decide (rx (j + 1) ≠ 0) := by
  have hc : sampledByte rx [1, 2, 4, 8, 16, 32, 64, 128] 1 0
      = sampledByte (levelsOfBools [false, decide (rx 1 ≠ 0), decide (rx 2 ≠ 0), decide (rx 3 ≠ 0),
          decide (rx 4 ≠ 0), decide (rx 5 ≠ 0), decide (rx 6 ≠ 0), decide (rx 7 ≠ 0),
          decide (rx 8 ≠ 0)]) [1, 2, 4, 8, 16, 32, 64, 128] 1 0 := by
    apply sampledByte_congr
    intro i h1 h2
    simp only [List.length_cons, List.length_nil] at h2
    have hi : i = 1 ∨ i = 2 ∨ i = 3 ∨ i = 4 ∨ i = 5 ∨ i = 6 ∨ i = 7 ∨ i = 8 := by omega
    rcases hi with h | h | h | h | h | h | h | h <;> subst h <;>
      simp [levelsOfBools, HIGH, LOW]
  rw [hc]
  have hb := sampledByte_bits_of_bools (decide (rx 1 ≠ 0)) (decide (rx 2 ≠ 0)) (decide (rx 3 ≠ 0))
      (decide (rx 4 ≠ 0)) (decide (rx 5 ≠ 0)) (decide (rx 6 ≠ 0)) (decide (rx 7 ≠ 0))
      (decide (rx 8 ≠ 0)) ⟨j, hj⟩
  rw [hb]
  have hjs : j = 0 ∨ j = 1 ∨ j = 2 ∨ j = 3 ∨ j = 4 ∨ j = 5 ∨ j = 6 ∨ j = 7 := by omega
  rcases hjs with h | h | h | h | h | h | h | h <;> subst h <;> rfl

/-- C24 (counterexample): on the well-formed frame of the byte 'a' (0x61, parity
bit 1) `receiveChar` makes ten `digitalRead` calls, so eight samples lie between
the start re-check and the stop-bit sample, each after a delay of 800
microseconds; the eighth sets bit 7 of the working byte, which leaves the loop
as 0xE1, and the stop-bit sample is the tenth call. -/
theorem C24_eight_samples_not_seven :
    readCount (emitted (begin (fresh false 4 17 27 22))
      (receiveChar (begin (fresh false 4 17 27 22)) (wellFormedFrame 97) 0)) = 10 ∧
    (emitted (begin (fresh false 4 17 27 22))
      (receiveChar (begin (fresh false 4 17 27 22)) (wellFormedFrame 97) 0)).count
        (Event.delayMicroseconds 800) = 8 ∧
    (sampleLoop (wellFormedFrame 97) (rxMasks 65536 0x1) 1 (begin (fresh false 4 17 27 22)) 0).2.1
      = 0xE1 ∧
    (sampleLoop (wellFormedFrame 97) (rxMasks 65536 0x1) 1 (begin (fresh false 4 17 27 22)) 0).2.2
      = 9 := by
  decide

/-- C24 (amended): on every frame whose start sample is LOW, `receiveChar`
waits 20 microseconds and then takes exactly eight samples between the start
re-check and the stop-bit sample (the seven data bits and the parity bit), each
preceded by a delay of 800 microseconds; sample k (k = 0..7) determines bit k of
the working byte; the stop-bit sample follows one further delay of 650
microseconds and is the last `digitalRead` of the run. -/
theorem C24_sampling_sequence (s : Globals) (rx : Nat → Nat) (stray : Nat) (hstart : rx 0 = 0) :
    (∃ rest : List Event,
      emitted s (receiveChar s rx stray) =
        [Event.digitalRead s.rxDataPin, Event.delayMicrosecnds 20] ++
        (List.range 8).flatMap (fun k =>
          [Event.delayMicroseconds 800, Event.digitalRead s.rxDataPin,
           Event.cout (if rx (1 + k) = 0 then "pin level LOW : " else "pin level HIGH : "),
           Event.cout "\n"]) ++
        [Event.delayMicroseconds 650, Event.digitalRead s.rxDataPin] ++ rest ∧
      readCount rest = 0) ∧
    readCount (emitted s (receiveChar s rx stray)) = 10 ∧
    (∀ t : Globals,
      (sampleLoop rx (rxMasks 65536 0x1) 1 t 0).2.2 = 9 ∧
      ∀ k, k < 8 →
        ((sampleLoop rx (rxMasks 65536 0x1) 1 t 0).2.1).testBit k = decide (rx (k + 1) ≠ 0)) := by
  have hr := receiveChar_start_LOW s rx stray hstart
  have hr8 : List.range 8 = [0, 1, 2, 3, 4, 5, 6, 7] := by decide
  rw [emitted_of_log s (receiveChar s rx stray) _ (by rw [hr])]
  refine ⟨⟨[Event.cout (if rx 9 = 0
      then "receiveChar() Incorrect stop bit : - parityError set to true and interrupt disabled \n"
      else "receiveChar() parity error: - parityError set to true - check parityError()\n"),
      Event.system "gpio edge 22 none", Event.digitalWrite s.rxEnable HIGH,
      Event.digitalWrite s.txEnable HIGH], ?_, ?_⟩, ?_, ?_⟩
  · simp
  · simp [readCount]
  · simp [readCount, hr8, List.countP_cons]
  · intro t
    rw [rxMasks_eq, sampleLoop_frame]
    refine ⟨rfl, ?_⟩
    intro k hk
    exact sampledByte_bits rx k hk

/-- C24 (amended) applied after `begin()` on a fresh driver to the well-formed
frame of the byte 'a'. -/
theorem C24_sampling_sequence_witness :
    readCount (emitted (begin (fresh false 4 17 27 22))
      (receiveChar (begin (fresh false 4 17 27 22)) (wellFormedFrame 97) 0)) = 10 :=
  (C24_sampling_sequence (begin (fresh false 4 17 27 22)) (wellFormedFrame 97) 0 (by decide)).2.1

/-- Only the log is changed by `sendCommand`; it ends with the calls of
`setState(LISTENING)`. -/
theorem sendCommand_frame (s : Globals) (cmd : List Nat) :
    sendCommand s cmd = { s with log := s.log ++
      ((setState { s with log := [] } TRANSMITTING).log ++
        [Event.digitalWrite s.txDataPin LOW, Event.delayMicroseconds 14161,
         Event.digitalWrite s.txDataPin HIGH, Event.delayMicroseconds 10000] ++
       cmd.flatMap (fun b => (writeChar { s with log := [] } b).log) ++
       (setState { s with log := [] } LISTENING).log) } := by
  show setState (cmd.foldl writeChar (wakeSensors s)) LISTENING = _
  rw [wakeSensors_frame s, foldl_writeChar_frame, setState_frame]
  simp

/-- A state that differs from `s` in its log only has the buffer of `s`. -/
theorem sameBuffer_of_log (s : Globals) (l : List Event) : SameBuffer s { s with log := l } :=
  ⟨rfl, rfl, rfl, rfl, rfl⟩

/-- C22: `setState`, `begin()`, `end()`, `forceHold()`, `wakeSensors()`,
`writeChar()` and `sendCommand()` (and the destructor) leave head, tail, the
buffer contents, overflow and parityError as they were; after `end()` any
number of `read()` calls returns exactly what it would have returned before. -/
theorem C22_line_operations_keep_buffer (s : Globals) (state out : Nat) (cmd : List Nat) :
    SameBuffer s (setState s state) ∧
    SameBuffer s (begin s) ∧
    SameBuffer s (end_ s) ∧
    SameBuffer s (destructor s) ∧
    SameBuffer s (forceHold s) ∧
    SameBuffer s (wakeSensors s) ∧
    SameBuffer s (writeChar s out) ∧
    SameBuffer s (sendCommand s cmd) ∧
    (∀ n, (readN n (end_ s)).1 = (readN n s).1) ∧
    contents (end_ s) = contents s := by
  have hset : ∀ st, SameBuffer s (setState s st) := by
    intro st
    rw [setState_frame s st]
    exact sameBuffer_of_log s _
  have hend : SameBuffer s (end_ s) := hset DISABLED
  refine ⟨hset state, hset INTERRUPTENABLED, hend, hset DISABLED, hset HOLDING, ?_, ?_, ?_, ?_, ?_⟩
  · rw [wakeSensors_frame s]; exact sameBuffer_of_log s _
  · rw [writeChar_frame s out]; exact sameBuffer_of_log s _
  · rw [sendCommand_frame s cmd]; exact sameBuffer_of_log s _
  · intro n
    exact readN_congr n (end_ s) s hend.2.2.1 hend.1 hend.2.1
  · unfold contents stored
    rw [hend.1, hend.2.1, hend.2.2.1]

/-- The levels of the eight payload bits written by `writeChar`, one per mask. -/
theorem writeChar_payload (s : Globals) (out : Nat) :
    payloadOf (emitted s (writeChar s out))
      = [1, 2, 4, 8, 16, 32, 64, 128].map (fun mask =>
          if (out % 256 ||| evenParityBit (out % 256) <<< 7) % 256 &&& mask ≠ 0 then HIGH else LOW) := by
  unfold emitted
  rw [writeChar_log, List.drop_left, txMasks_eq]
  simp [payloadOf, writes]

/-- The payload computed from a byte, by range of the byte: below 128 bit 7 is
the parity of the byte and the number of ones is even; from 128 on the payload
is the byte itself. -/
theorem payload_by_range (b : Nat) (hb : b < 256) :
    (b < 128 →
      ([1, 2, 4, 8, 16, 32, 64, 128].map (fun mask =>
        if (b % 256 ||| evenParityBit (b % 256) <<< 7) % 256 &&& mask ≠ 0 then HIGH else LOW)).count HIGH % 2 = 0 ∧
      ([1, 2, 4, 8, 16, 32, 64, 128].map (fun mask =>
        if (b % 256 ||| evenParityBit (b % 256) <<< 7) % 256 &&& mask ≠ 0 then HIGH else LOW)).getD 7 LOW
        = popcount b % 2) ∧
    (128 ≤ b →
      [1, 2, 4, 8, 16, 32, 64, 128].map (fun mask =>
        if (b % 256 ||| evenParityBit (b % 256) <<< 7) % 256 &&& mask ≠ 0 then HIGH else LOW)
        = (List.range 8).map (fun k => if b.testBit k then HIGH else LOW) ∧
      ([1, 2, 4, 8, 16, 32, 64, 128].map (fun mask =>
        if (b % 256 ||| evenParityBit (b % 256) <<< 7) % 256 &&& mask ≠ 0 then HIGH else LOW)).count HIGH
        = popcount b) := by
  revert b
  decide

/-- C25 (counterexample): for the byte 0x80 the eight payload bits written by
`writeChar` are seven LOW and one HIGH, an odd number of ones, and bit 7 is
HIGH although the even-parity bit of the seven (all zero) data bits is 0. -/
theorem C25_high_bit_byte_breaks_parity :
    payloadOf (emitted (fresh false 4 17 27 22) (writeChar (fresh false 4 17 27 22) 0x80))
      = [LOW, LOW, LOW, LOW, LOW, LOW, LOW, HIGH] ∧
    (payloadOf (emitted (fresh false 4 17 27 22) (writeChar (fresh false 4 17 27 22) 0x80))).count HIGH
      % 2 = 1 ∧
    (payloadOf (emitted (fresh false 4 17 27 22) (writeChar (fresh false 4 17 27 22) 0x80))).getD 7 LOW
      = HIGH ∧
    popcount (0x80 % 128) % 2 = 0 := by
  decide

/-- C25 (amended): for every byte value 0..127 passed to `writeChar` the eight
payload bits contain an even number of ones and bit 7 of the payload is the
even-parity bit of the seven data bits; for every byte value 128..255 the
payload is the byte itself (bit 7 stays set), so its number of ones is the
population count of the byte. -/
theorem C25_payload_parity (s : Globals) (b : Nat) (hb : b < 256) :
    (b < 128 →
      (payloadOf (emitted s (writeChar s b))).count HIGH % 2 = 0 ∧
      (payloadOf (emitted s (writeChar s b))).getD 7 LOW = popcount b % 2) ∧
    (128 ≤ b →
      payloadOf (emitted s (writeChar s b))
        = (List.range 8).map (fun k => if b.testBit k then HIGH else LOW) ∧
      (payloadOf (emitted s (writeChar s b))).count HIGH = popcount b) := by
  rw [writeChar_payload]
  exact payload_by_range b hb

/-- C25 (amended) applied to the byte 'a' on a fresh driver. -/
theorem C25_payload_parity_witness :
    (payloadOf (emitted (fresh false 4 17 27 22) (writeChar (fresh false 4 17 27 22) 97))).count HIGH
      % 2 = 0 ∧
    (payloadOf (emitted (fresh false 4 17 27 22) (writeChar (fresh false 4 17 27 22) 97))).getD 7 LOW
      = popcount 97 % 2 :=
  (C25_payload_parity (fresh false 4 17 27 22) 97 (by decide)).1 (by decide)

/-- C26 (counterexample): in the frame that `writeChar` sends for the byte '0'
the first write, at the start-bit position, drives the tx data pin LOW, not
HIGH. -/
theorem C26_start_bit_is_LOW :
    (writes (emitted (fresh false 4 17 27 22) (writeChar (fresh false 4 17 27 22) 48))).head?
      = some (17, LOW) ∧
    (writes (emitted (fresh false 4 17 27 22) (writeChar (fresh false 4 17 27 22) 48))).head?
      ≠ some (17, HIGH) ∧
    (writes (emitted (fresh false 4 17 27 22) (writeChar (fresh false 4 17 27 22) 48))).getLast?
      = some (17, HIGH) := by
  decide

/-- C26 (amended): for every byte, `writeChar` drives the tx data pin LOW for
820 microseconds at the start-bit position and HIGH for 820 microseconds at the
stop-bit position of its ten-write frame. -/
theorem C26_start_LOW_stop_HIGH (s : Globals) (out : Nat) :
    (holds (emitted s (writeChar s out))).head? = some (s.txDataPin, LOW, 820) ∧
    (holds (emitted s (writeChar s out))).getLast? = some (s.txDataPin, HIGH, 820) ∧
    (holds (emitted s (writeChar s out))).length = 10 ∧
    LOW ≠ HIGH := by
  unfold emitted
  rw [writeChar_log, List.drop_left, txMasks_eq]
  simp [holds, holdTime, LOW, HIGH]

/-- The unknown-state diagnostic is printed by `setState` for every state value
other than HOLDING, TRANSMITTING, DISABLED and INTERRUPTENABLED; LISTENING is
among the values for which it is printed. -/
theorem setState_diagnostic_iff (s : Globals) (state : Nat) :
    unknownStateDiagnostic ∈ emitted s (setState s state) ↔
      (state ≠ HOLDING ∧ state ≠ TRANSMITTING ∧ state ≠ DISABLED ∧ state ≠ INTERRUPTENABLED) := by
  rw [setState_frame s state, emitted_append]
  unfold setState
  by_cases h2 : state = HOLDING
  · subst h2
    simp [HOLDING, unknownStateDiagnostic, digitalWrite, emit]
  by_cases h3 : state = TRANSMITTING
  · subst h3
    simp [HOLDING, TRANSMITTING, unknownStateDiagnostic, digitalWrite, emit]
  by_cases h4 : state = LISTENING
  · subst h4
    simp [LISTENING, HOLDING, TRANSMITTING, DISABLED, INTERRUPTENABLED, unknownStateDiagnostic,
      digitalWrite, emit, cout, coutUnsigned]
  by_cases h0 : state = DISABLED
  · subst h0
    simp [LISTENING, HOLDING, TRANSMITTING, DISABLED, unknownStateDiagnostic, digitalWrite, emit,
      system]
  by_cases h5 : state = INTERRUPTENABLED
  · subst h5
    simp [LISTENING, HOLDING, TRANSMITTING, DISABLED, INTERRUPTENABLED, unknownStateDiagnostic,
      digitalWrite, emit, system, pullUpDnControl, pullPuDnControl, delay]
  · simp [h2, h3, h4, h0, h5, unknownStateDiagnostic, emit, cout, coutUnsigned]

/-- Every `sendCommand` prints the unknown-state diagnostic, through its final
`setState(LISTENING)`. -/
theorem sendCommand_prints_diagnostic (s : Globals) (cmd : List Nat) :
    unknownStateDiagnostic ∈ emitted s (sendCommand s cmd) := by
  have hl : unknownStateDiagnostic ∈ emitted s (setState s LISTENING) :=
    (setState_diagnostic_iff s LISTENING).mpr (by decide)
  rw [setState_frame s LISTENING, emitted_append] at hl
  rw [sendCommand_frame s cmd, emitted_append]
  exact List.mem_append_right _ hl

/-- C27 (evaluation at the failing input): `setState(LISTENING)` writes the two
enable pins and then prints the unknown-state diagnostic and the state value
4; the command `0M!` sent with `sendCommand` prints it as well; the other four
recognised states print nothing and the unrecognised values 1 and 6 do. -/
theorem C27_LISTENING_prints_diagnostic :
    emitted (fresh false 4 17 27 22) (setState (fresh false 4 17 27 22) LISTENING)
      = [Event.digitalWrite 4 HIGH, Event.digitalWrite 27 LOW,
         Event.cout "Error: SetState = unknown check script for mistake", Event.cout "\n",
         Event.coutUnsigned 4, Event.cout "\n"] ∧
    unknownStateDiagnostic ∈
      emitted (fresh false 4 17 27 22) (sendCommand (fresh false 4 17 27 22) [48, 77, 33]) ∧
    unknownStateDiagnostic ∉
      emitted (fresh false 4 17 27 22) (setState (fresh false 4 17 27 22) DISABLED) ∧
    unknownStateDiagnostic ∉
      emitted (fresh false 4 17 27 22) (setState (fresh false 4 17 27 22) HOLDING) ∧
    unknownStateDiagnostic ∉
      emitted (fresh false 4 17 27 22) (setState (fresh false 4 17 27 22) TRANSMITTING) ∧
    unknownStateDiagnostic ∉
      emitted (fresh false 4 17 27 22) (setState (fresh false 4 17 27 22) INTERRUPTENABLED) ∧
    unknownStateDiagnostic ∈
      emitted (fresh false 4 17 27 22) (setState (fresh false 4 17 27 22) ENABLED) ∧
    unknownStateDiagnostic ∈
      emitted (fresh false 4 17 27 22) (setState (fresh false 4 17 27 22) 6) := by
  decide

/-- The query `availabe()` returns the state it was given. -/
theorem availabe_state (s : Globals) : (availabe s).2 = s := by
  unfold availabe; split <;> rfl

/-- The invariant does not mention the log or the flags. -/
theorem bufferInv_of_same (s t : Globals) (h : BufferInv s)
    (hh : t.rxBufferHead = s.rxBufferHead) (ht : t.rxBufferTail = s.rxBufferTail)
    (hb : t.rxBuffer = s.rxBuffer) : BufferInv t := by
  unfold BufferInv
  rw [hh, ht, hb]
  exact h

/-- A freshly constructed driver satisfies the invariant. -/
theorem bufferInv_fresh (charSigned : Bool) (txEnable txDataPin rxEnable rxDataPin : Nat) :
    BufferInv (fresh charSigned txEnable txDataPin rxEnable rxDataPin) :=
  ⟨by show (0 : Nat) < 75; decide, by show (0 : Nat) < 75; decide,
    fun _ _ => by show (0 : Nat) < 128; decide⟩

/-- The enqueue step preserves the invariant. -/
theorem bufferInv_enqueue (s : Globals) (b : Nat) (h : BufferInv s) : BufferInv (enqueue s b) := by
  by_cases hf : s.rxBufferTail + 1 = s.rxBufferHead
  · rw [enqueue_full s b hf]
    exact bufferInv_of_same s _ h rfl rfl rfl
  · rw [enqueue_store s b hf]
    refine ⟨h.1, Nat.mod_lt _ (by decide), ?_⟩
    intro i hi
    show Function.update s.rxBuffer (s.rxBufferTail : Int) (b &&& 0x7F) (i : Int) < 128
    by_cases he : (i : Int) = (s.rxBufferTail : Int)
    · rw [he, Function.update_same]
      exact and_7F_lt b
    · rw [Function.update_noteq he]
      exact h.2.2 i hi

/-- The call `read()` preserves the invariant. -/
theorem bufferInv_read (s : Globals) (h : BufferInv s) : BufferInv (read s).2 := by
  by_cases he : s.rxBufferHead = s.rxBufferTail
  · rw [read_empty s he]
    exact bufferInv_of_same s _ h rfl rfl rfl
  · rw [read_nonempty s he]
    exact ⟨Nat.mod_lt _ (by decide), h.2.1, h.2.2⟩

/-- A run of `receiveChar` whose first sample is not LOW makes one
`digitalRead` call and then runs the store at the end of the function. -/
theorem receiveChar_start_HIGH (s : Globals) (rx : Nat → Nat) (stray : Nat) (h0 : rx 0 ≠ 0) :
    receiveChar s rx stray = enqueue (emit s (Event.digitalRead s.rxDataPin)) stray := by
  unfold receiveChar
  simp [digitalRead, h0]

/-- The interrupt routine preserves the invariant. -/
theorem bufferInv_handleInterrupt (s : Globals) (rx : Nat → Nat) (stray : Nat) (h : BufferInv s) :
    BufferInv (handleInterrupt s rx stray) := by
  by_cases hp : s.parityError = true
  · have he : handleInterrupt s rx stray = { s with log := s.log ++
        [Event.cout "handleInterrupt() error : parity error is true: \n"] } := by
      simp [handleInterrupt, hp, cout, emit]
    rw [he]
    exact bufferInv_of_same s _ h rfl rfl rfl
  · have hp' : s.parityError = false := by
      cases hs : s.parityError
      · rfl
      · exact absurd hs hp
    rw [handleInterrupt_clear s rx stray hp']
    by_cases h0 : rx 0 = 0
    · rw [receiveChar_start_LOW s rx stray h0]
      exact bufferInv_of_same s _ h rfl rfl rfl
    · rw [receiveChar_start_HIGH s rx stray h0]
      exact bufferInv_enqueue _ stray (bufferInv_of_same s _ h rfl rfl rfl)

/-- C28: the predicate 'head < 75, tail < 75 and every cell of the array holds
a value in 0..127' holds for a freshly constructed driver and is preserved by
the constructor, the enqueue step, `read()`, `peek()`, `availabe()`,
`LFCheck()`, `CRCheck()`, `flush()`, the two status queries, every line-state
operation and the interrupt routine; in every such state `read()` and `peek()`
return -1 exactly when head == tail and otherwise a value in 0..127. -/
theorem C28_buffer_invariant (s : Globals) (hinv : BufferInv s) :
    (∀ cs a b c d, BufferInv (fresh cs a b c d)) ∧
    (∀ a b c d, BufferInv (construct s a b c d)) ∧
    (∀ b, BufferInv (enqueue s b)) ∧
    BufferInv (read s).2 ∧
    BufferInv (peek s).2 ∧
    BufferInv (availabe s).2 ∧
    BufferInv (LFCheck s).2 ∧
    BufferInv (CRCheck s).2 ∧
    BufferInv (flush s) ∧
    BufferInv (overflowStatus s).2 ∧
    BufferInv (parityErrorStatus s).2 ∧
    (∀ state, BufferInv (setState s state)) ∧
    BufferInv (begin s) ∧
    BufferInv (end_ s) ∧
    BufferInv (destructor s) ∧
    BufferInv (forceHold s) ∧
    BufferInv (wakeSensors s) ∧
    (∀ out, BufferInv (writeChar s out)) ∧
    (∀ cmd, BufferInv (sendCommand s cmd)) ∧
    (∀ rx stray, BufferInv (handleInterrupt s rx stray)) ∧
    ((read s).1 = -1 ↔ s.rxBufferHead = s.rxBufferTail) ∧
    (s.rxBufferHead ≠ s.rxBufferTail → 0 ≤ (read s).1 ∧ (read s).1 ≤ 127) ∧
    ((peek s).1 = -1 ↔ s.rxBufferHead = s.rxBufferTail) ∧
    (s.rxBufferHead ≠ s.rxBufferTail → 0 ≤ (peek s).1 ∧ (peek s).1 ≤ 127) := by
  have hset : ∀ st, BufferInv (setState s st) := by
    intro st
    rw [setState_frame s st]
    exact bufferInv_of_same s _ hinv rfl rfl rfl
  have hcell : s.rxBuffer (s.rxBufferHead : Int) < 128 := hinv.2.2 _ hinv.1
  have hmod : s.rxBuffer (s.rxBufferHead : Int) % 256 = s.rxBuffer (s.rxBufferHead : Int) := by
    omega
  have hno : ¬ 128 ≤ s.rxBuffer (s.rxBufferHead : Int) := by omega
  have hpeek : ∀ hne : s.rxBufferHead ≠ s.rxBufferTail,
      (peek s).1 = ((s.rxBuffer (s.rxBufferHead : Int) : Nat) : Int) := by
    intro hne
    simp [peek, hne, charToInt, hmod, hno]
  refine ⟨bufferInv_fresh, ?_, fun b => bufferInv_enqueue s b hinv, bufferInv_read s hinv, ?_, ?_,
    ?_, ?_, ?_, hinv, hinv, hset, hset INTERRUPTENABLED, hset DISABLED, hset DISABLED,
    hset HOLDING, ?_, ?_, ?_, fun rx stray => bufferInv_handleInterrupt s rx stray hinv,
    ?_, ?_, ?_, ?_⟩
  · intro a b c d
    exact ⟨by show (0 : Nat) < 75; decide, by show (0 : Nat) < 75; decide, hinv.2.2⟩
  · rw [peek_state]; exact hinv
  · rw [availabe_state]; exact hinv
  · rw [LFCheck_state]; exact hinv
  · rw [CRCheck_state]; exact hinv
  · exact ⟨by show (0 : Nat) < 75; decide, by show (0 : Nat) < 75; decide, hinv.2.2⟩
  · rw [wakeSensors_frame s]; exact bufferInv_of_same s _ hinv rfl rfl rfl
  · intro out
    rw [writeChar_frame s out]; exact bufferInv_of_same s _ hinv rfl rfl rfl
  · intro cmd
    rw [sendCommand_frame s cmd]; exact bufferInv_of_same s _ hinv rfl rfl rfl
  · constructor
    · intro h
      by_contra hne
      rw [read_nonempty s hne] at h
      have : (0 : Int) ≤ ((s.rxBuffer (s.rxBufferHead : Int) % 256 : Nat) : Int) :=
        Int.ofNat_nonneg _
      simp only at h
      omega
    · intro he
      rw [read_empty s he]
  · intro hne
    rw [read_nonempty s hne]
    simp only
    omega
  · constructor
    · intro h
      by_contra hne
      rw [hpeek hne] at h
      omega
    · intro he
      simp [peek, he]
  · intro hne
    rw [hpeek hne]
    omega

/-- C28 applied to a freshly constructed driver holding the byte 'A'. -/
theorem C28_buffer_invariant_witness :
    BufferInv (read (enqueue (fresh false 4 17 27 22) 65)).2 ∧
    (0 ≤ (read (enqueue (fresh false 4 17 27 22) 65)).1 ∧
      (read (enqueue (fresh false 4 17 27 22) 65)).1 ≤ 127) :=
  ⟨(C28_buffer_invariant (enqueue (fresh false 4 17 27 22) 65)
      (bufferInv_enqueue _ 65 (bufferInv_fresh false 4 17 27 22))).2.2.2.1,
   (C28_buffer_invariant (enqueue (fresh false 4 17 27 22) 65)
      (bufferInv_enqueue _ 65 (bufferInv_fresh false 4 17 27 22))).2.2.2.2.2.2.2.2.2.2.2.2.2.2.2.2.2.2.2.2.2.1
      (by decide)⟩

end SDI12
